import Mathlib

/-!
Shallow embedding of the raytracer's scene-graph intersection engine and
recursive shading pipeline (src/util.rs, src/tuple.rs, src/color.rs,
src/matrix.rs, src/ray.rs, src/light.rs, src/shape.rs, src/object.rs,
src/world.rs), together with theorems settling the frozen claims about it.

Numeric model: the source computes over IEEE f64.  The embedding uses exact
rationals (ℚ).  Square root and powf have no exact rational counterpart, so
they are modelled by `fsqrt` and `powQ`, which agree with the f64 functions
on the perfect-square / natural-exponent inputs at which every concrete
theorem below evaluates them; no claim proved here depends on the value of a
square root or power elsewhere.  f64 has non-finite values; in this program
the only distance values ever produced are finite (a vector magnitude, or the
finite constant f64::MAX), which is why `isFiniteF` is constantly true — see
its doc comment.  The one computation that does produce infinities and NaN —
the cube slab test, through `numerator * f64::INFINITY` — is modelled exactly
by the `SlabVal` domain, with IEEE comparisons (false on NaN) and Rust's
NaN-ignoring `f64::max`/`f64::min`.
-/

set_option allowUnsafeReducibility true

attribute [semireducible] Rat.mul Rat.add Rat.sub Rat.neg Rat.div Rat.inv Rat.blt

/-- EPSILON from src/util.rs: `pub const EPSILON: f64 = 1e-5`. -/
def EPSILON : ℚ := 1 / 100000

/-- close_eq from src/util.rs: `(x - y).abs() < EPSILON`. -/
def close_eq (x y : ℚ) : Bool := |x - y| < EPSILON

/-- Integer square root (largest k with k*k ≤ n), by structural recursion so
that concrete theorems can evaluate it. -/
def natSqrtLin (n : Nat) : Nat :=
  (List.range (n + 1)).foldl (fun acc k => if k * k ≤ n then k else acc) 0

/-- Models f64::sqrt.  Exact on rationals that are squares of rationals
(the only inputs at which any theorem in this file evaluates it); other
inputs are irrational in ℚ and are mapped to 0. -/
def fsqrt (q : ℚ) : ℚ :=
  let n : Nat := natSqrtLin q.num.toNat
  let d : Nat := natSqrtLin q.den
  if 0 ≤ q ∧ n * n = q.num.toNat ∧ d * d = q.den then (n : ℚ) / (d : ℚ) else 0

/-- Models f64::powf.  Exact when the exponent is a nonnegative integer (the
shininess exponents at which the theorems below evaluate it); other exponents
give irrational results and are mapped to 0. -/
def powQ (x y : ℚ) : ℚ := if y.den = 1 ∧ 0 ≤ y.num then x ^ y.num.toNat else 0

/-- Models `f64::MAX` (the largest finite f64, `(2^53 - 1) * 2^971`, written
out as a literal so concrete comparisons against it evaluate in one step),
the distance assigned to a directional light in src/world.rs line 238. -/
def f64MAX : ℚ := 179769313486231570814527423731704356798070567525844996598917476803157260780028538760589558632766878171540458953514382464234321326889464182768467546703537516986049910576551282076245490090389328944075868508455133942304583236903222948165808559332123348274797826204144723168738177180919299881250404026184124858368

/-- Models `f64::is_finite`.  In this program the values it is applied to are
a vector magnitude or `f64::MAX`, both finite (overflow to infinity is not
modelled), so the test is constantly true — in particular it is true on
`f64MAX`, exactly as `f64::MAX.is_finite()` is true in the source. -/
def isFiniteF (_ : ℚ) : Bool := true

/-- Tuple from src/tuple.rs: four f64 components. -/
structure Tuple where
  x : ℚ
  y : ℚ
  z : ℚ
  w : ℚ
deriving DecidableEq

namespace Tuple

/-- Tuple::point. -/
def point (x y z : ℚ) : Tuple := ⟨x, y, z, 1⟩

/-- Tuple::vector. -/
def vector (x y z : ℚ) : Tuple := ⟨x, y, z, 0⟩

/-- Add for Tuple (componentwise over all four elements). -/
def add (a b : Tuple) : Tuple := ⟨a.x + b.x, a.y + b.y, a.z + b.z, a.w + b.w⟩

/-- Sub for Tuple. -/
def sub (a b : Tuple) : Tuple := ⟨a.x - b.x, a.y - b.y, a.z - b.z, a.w - b.w⟩

/-- Neg for Tuple. -/
def neg (a : Tuple) : Tuple := ⟨-a.x, -a.y, -a.z, -a.w⟩

/-- Mul<f64> for Tuple. -/
def smul (a : Tuple) (c : ℚ) : Tuple := ⟨a.x * c, a.y * c, a.z * c, a.w * c⟩

/-- Div<f64> for Tuple. -/
def sdiv (a : Tuple) (c : ℚ) : Tuple := ⟨a.x / c, a.y / c, a.z / c, a.w / c⟩

/-- Tuple::dot — dot_product runs over all four elements, w included. -/
def dot (a b : Tuple) : ℚ := a.x * b.x + a.y * b.y + a.z * b.z + a.w * b.w

/-- Tuple::magnitude. -/
def magnitude (a : Tuple) : ℚ := fsqrt (dot a a)

/-- Tuple::normalize. -/
def normalize (a : Tuple) : Tuple := sdiv a (magnitude a)

instance : Add Tuple := ⟨add⟩

instance : Sub Tuple := ⟨sub⟩

instance : Neg Tuple := ⟨neg⟩

instance : HMul Tuple ℚ Tuple := ⟨smul⟩

/-- Tuple::reflect: `self - normal * 2.0 * self.dot(normal)`. -/
def reflect (a n : Tuple) : Tuple := a - n * (2 : ℚ) * dot a n

end Tuple

/-- Color from src/color.rs. -/
structure Color where
  red : ℚ
  green : ℚ
  blue : ℚ
deriving DecidableEq

namespace Color

/-- Add for Color. -/
def add (a b : Color) : Color := ⟨a.red + b.red, a.green + b.green, a.blue + b.blue⟩

/-- Sub for Color. -/
def sub (a b : Color) : Color := ⟨a.red - b.red, a.green - b.green, a.blue - b.blue⟩

/-- Mul<f64> for Color. -/
def smul (a : Color) (c : ℚ) : Color := ⟨a.red * c, a.green * c, a.blue * c⟩

/-- Mul for Color (componentwise). -/
def mul (a b : Color) : Color := ⟨a.red * b.red, a.green * b.green, a.blue * b.blue⟩

instance : Add Color := ⟨add⟩

instance : Sub Color := ⟨sub⟩

instance : HMul Color ℚ Color := ⟨smul⟩

instance : Mul Color := ⟨mul⟩

/-- The black background color `Color::new(0.0, 0.0, 0.0)`. -/
def black : Color := ⟨0, 0, 0⟩

/-- White, `Color::new(1.0, 1.0, 1.0)` (the ambient base in phong). -/
def white : Color := ⟨1, 1, 1⟩

end Color

/-- Matrix<4> from src/matrix.rs, stored as its four rows; `Mul<Tuple>` dots
each row with the tuple's four elements, so rows-of-tuples is the faithful
shape. -/
structure Mat4 where
  r0 : Tuple
  r1 : Tuple
  r2 : Tuple
  r3 : Tuple
deriving DecidableEq

namespace Mat4

/-- Matrix::identity. -/
def identity : Mat4 :=
  ⟨⟨1, 0, 0, 0⟩, ⟨0, 1, 0, 0⟩, ⟨0, 0, 1, 0⟩, ⟨0, 0, 0, 1⟩⟩

/-- Mul<Tuple> for Matrix<4>: per-row dot product over all four elements. -/
def mulVec (m : Mat4) (v : Tuple) : Tuple :=
  ⟨Tuple.dot m.r0 v, Tuple.dot m.r1 v, Tuple.dot m.r2 v, Tuple.dot m.r3 v⟩

/-- Matrix::transpose. -/
def transpose (m : Mat4) : Mat4 :=
  ⟨⟨m.r0.x, m.r1.x, m.r2.x, m.r3.x⟩,
   ⟨m.r0.y, m.r1.y, m.r2.y, m.r3.y⟩,
   ⟨m.r0.z, m.r1.z, m.r2.z, m.r3.z⟩,
   ⟨m.r0.w, m.r1.w, m.r2.w, m.r3.w⟩⟩

end Mat4

/-- Ray from src/ray.rs. -/
structure Ray where
  origin : Tuple
  direction : Tuple
deriving DecidableEq

namespace Ray

/-- Ray::position. -/
def position (r : Ray) (t : ℚ) : Tuple := r.origin + r.direction * t

/-- Ray::transform. -/
def transform (r : Ray) (m : Mat4) : Ray :=
  ⟨Mat4.mulVec m r.origin, Mat4.mulVec m r.direction⟩

end Ray

/-- Pattern from src/pattern.rs: a `dyn PatternMap` (spec §1 treats pattern
evaluation as an external collaborator offering `colorAt(point) → color`,
modelled as a function) plus the cached inverse transform. -/
structure Pattern where
  map : Tuple → Color
  transformInverse : Mat4

/-- Pattern::color_at_object from src/pattern.rs lines 15-18. -/
def Pattern.colorAtObject (p : Pattern) (objectPoint : Tuple) : Color :=
  p.map (Mat4.mulVec p.transformInverse objectPoint)

/-- Modelled from the spec: the material record of material.rs, which is not
under src/ — spec §3 lists its fields: "a material (color, ambient/diffuse/
specular/shininess coefficients, reflective and transparency coefficients,
refractive index, optional procedural pattern reference)". -/
structure Material where
  color : Color
  ambient : ℚ
  diffuse : ℚ
  specular : ℚ
  shininess : ℚ
  reflective : ℚ
  transparency : ℚ
  refractive_index : ℚ
  pattern : Option Pattern

/-- Modelled from the spec: `Material::new()`.  The spec does not record the
default coefficient values; no claim below depends on them (groups and CSG
nodes, the only places the default is stored by the core, carry no surface). -/
def Material.new : Material :=
  { color := Color.white, ambient := 1/10, diffuse := 9/10, specular := 9/10,
    shininess := 200, reflective := 0, transparency := 0,
    refractive_index := 1, pattern := none }

/-- Light from src/light.rs. -/
inductive Light where
  | point (position : Tuple) (intensity : Color)
  | directional (direction : Tuple) (intensity : Color)

/-- Light::new_directional normalizes the direction before storing it. -/
def Light.new_directional (direction : Tuple) (intensity : Color) : Light :=
  Light.directional (Tuple.normalize direction) intensity

/-- LightSource from src/light.rs. -/
structure LightSource where
  intensity : Color
  direction : Tuple
  distance : ℚ
deriving DecidableEq

/-- Handle to an object in an object pool (`pub type Obj = usize`). -/
abbrev Obj := Nat

/-- Intersection from src/object.rs. -/
structure Intersection where
  t : ℚ
  obj : Obj
deriving DecidableEq

/-- Constructive Solid Geometry operations (CsgOp in src/object.rs). -/
inductive CsgOp where
  | union
  | inter
  | diff
deriving DecidableEq

/-- Shape from src/shape.rs. -/
inductive Shape where
  | plane
  | sphere
  | cube
  | cylinder (y_min y_max : ℚ) (closed : Bool)
  | cone (y_min y_max : ℚ) (closed : Bool)
deriving DecidableEq

/-- The value domain of the cube slab computation of src/shape.rs: a finite
f64 (idealized as a rational), one of the two infinities produced by
`numerator * f64::INFINITY` in the near-parallel branch of check_axis, or NaN
(the IEEE result of `0.0 * f64::INFINITY`, reached when the ray origin lies
exactly on a slab face while the direction component is below EPSILON). -/
inductive SlabVal where
  | fin (q : ℚ)
  | pinf
  | ninf
  | nan
deriving DecidableEq

namespace SlabVal

/-- IEEE `<` on slab values: every comparison involving NaN is false. -/
def lt : SlabVal → SlabVal → Bool
  | nan, _ => false
  | _, nan => false
  | ninf, ninf => false
  | ninf, _ => true
  | _, ninf => false
  | pinf, _ => false
  | fin _, pinf => true
  | fin a, fin b => decide (a < b)

/-- Rust's `f64::max` on slab values: a NaN operand is ignored (the other
argument is returned). -/
def fmax : SlabVal → SlabVal → SlabVal
  | nan, b => b
  | a, nan => a
  | a, b => if lt a b then b else a

/-- Rust's `f64::min` on slab values: a NaN operand is ignored. -/
def fmin : SlabVal → SlabVal → SlabVal
  | nan, b => b
  | a, nan => a
  | a, b => if lt b a then b else a

/-- `numerator * f64::INFINITY` under IEEE rules: positive infinity for a
positive numerator, negative infinity for a negative one, NaN for zero. -/
def mulInf (q : ℚ) : SlabVal :=
  if 0 < q then pinf else if q < 0 then ninf else nan

/-- Reading a slab bound back as the t value of a pushed Intersection (the
source pushes the f64 bound as is).  With any direction component at least
EPSILON in magnitude, the bounds that survive the `tmin > tmax` test are
finite (`fin`), and this conversion is exact.  A non-finite bound survives
the test only for a ray all of whose direction components are below EPSILON;
the infinities are then represented by sentinels beyond every finite
coordinate, and NaN (on which the source's subsequent
`partial_cmp(..).unwrap()` in the sort would panic) by 0. -/
def toRat : SlabVal → ℚ
  | fin q => q
  | pinf => 2 ^ 1100
  | ninf => -(2 ^ 1100)
  | nan => 0

end SlabVal

namespace Shape

/-- check_axis from the Cube arm of Shape::intersects.  The slab bounds are
f64 values that can be infinite or NaN (`numerator * f64::INFINITY` when the
direction component is below EPSILON), so they live in `SlabVal`; the swap
test `tmin > tmax` is the IEEE comparison, false on NaN. -/
def checkAxis (origin direction : ℚ) : SlabVal × SlabVal :=
  let tmin_numerator := -1 - origin
  let tmax_numerator := 1 - origin
  let p :=
    if EPSILON ≤ |direction| then
      (SlabVal.fin (tmin_numerator / direction), SlabVal.fin (tmax_numerator / direction))
    else
      (SlabVal.mulInf tmin_numerator, SlabVal.mulInf tmax_numerator)
  if SlabVal.lt p.2 p.1 then (p.2, p.1) else p

/-- check_cap from the Cylinder arm of Shape::intersects. -/
def cylCheckCap (r : Ray) (t : ℚ) : Bool :=
  let x := r.origin.x + t * r.direction.x
  let z := r.origin.z + t * r.direction.z
  x * x + z * z ≤ 1

/-- check_cap from the Cone arm of Shape::intersects (radius bound |y|). -/
def coneCheckCap (r : Ray) (t y : ℚ) : Bool :=
  let x := r.origin.x + t * r.direction.x
  let z := r.origin.z + t * r.direction.z
  x * x + z * z ≤ |y|

/-- Shape::intersects from src/shape.rs.  The source pushes onto a mutable
vector; the embedding returns the pushed list, in push order. -/
def intersects (s : Shape) (ray : Ray) (id : Obj) : List Intersection :=
  match s with
  | plane =>
      if |ray.direction.y| < EPSILON then []
      else [⟨-ray.origin.y / ray.direction.y, id⟩]
  | sphere =>
      let sphere_to_ray := ray.origin - Tuple.point 0 0 0
      let a := Tuple.dot ray.direction ray.direction
      let b := 2 * Tuple.dot ray.direction sphere_to_ray
      let c := Tuple.dot sphere_to_ray sphere_to_ray - 1
      let discriminant := b * b - 4 * a * c
      if discriminant < 0 then []
      else
        [⟨(-b - fsqrt discriminant) / (2 * a), id⟩,
         ⟨(-b + fsqrt discriminant) / (2 * a), id⟩]
  | cube =>
      let xt := checkAxis ray.origin.x ray.direction.x
      let yt := checkAxis ray.origin.y ray.direction.y
      let zt := checkAxis ray.origin.z ray.direction.z
      let tmin := SlabVal.fmax (SlabVal.fmax xt.1 yt.1) zt.1
      let tmax := SlabVal.fmin (SlabVal.fmin xt.2 yt.2) zt.2
      if SlabVal.lt tmax tmin then [] else [⟨tmin.toRat, id⟩, ⟨tmax.toRat, id⟩]
  | cylinder y_min y_max closed =>
      let a := ray.direction.x * ray.direction.x + ray.direction.z * ray.direction.z
      let lateral :=
        if close_eq a 0 then []
        else
          let b := 2 * ray.origin.x * ray.direction.x + 2 * ray.origin.z * ray.direction.z
          let c := ray.origin.x * ray.origin.x + ray.origin.z * ray.origin.z - 1
          let disc := b * b - 4 * a * c
          if 0 ≤ disc then
            let t0 := (-b - fsqrt disc) / (2 * a)
            let t1 := (-b + fsqrt disc) / (2 * a)
            let p := if t1 < t0 then (t1, t0) else (t0, t1)
            let h0 :=
              let y0 := ray.origin.y + p.1 * ray.direction.y
              if y_min < y0 ∧ y0 < y_max then [(⟨p.1, id⟩ : Intersection)] else []
            let h1 :=
              let y1 := ray.origin.y + p.2 * ray.direction.y
              if y_min < y1 ∧ y1 < y_max then [(⟨p.2, id⟩ : Intersection)] else []
            h0 ++ h1
          else []
      let caps :=
        if closed ∧ ¬ close_eq ray.direction.y 0 then
          let tl := (y_min - ray.origin.y) / ray.direction.y
          let cl := if cylCheckCap ray tl then [(⟨tl, id⟩ : Intersection)] else []
          let tu := (y_max - ray.origin.y) / ray.direction.y
          let cu := if cylCheckCap ray tu then [(⟨tu, id⟩ : Intersection)] else []
          cl ++ cu
        else []
      lateral ++ caps
  | cone y_min y_max closed =>
      let d := ray.direction
      let o := ray.origin
      let a := d.x * d.x - d.y * d.y + d.z * d.z
      let b := 2 * o.x * d.x - 2 * o.y * d.y + 2 * o.z * d.z
      let aIsZero := close_eq a 0
      let bIsZero := close_eq b 0
      let lateral :=
        if aIsZero ∧ bIsZero then []
        else if aIsZero then
          let c := o.x * o.x - o.y * o.y + o.z * o.z
          [(⟨-c / (2 * b), id⟩ : Intersection)]
        else
          let c := o.x * o.x - o.y * o.y + o.z * o.z
          let disc := b * b - 4 * a * c
          if 0 ≤ disc then
            let t0 := (-b - fsqrt disc) / (2 * a)
            let t1 := (-b + fsqrt disc) / (2 * a)
            let p := if t1 < t0 then (t1, t0) else (t0, t1)
            let h0 :=
              let y0 := o.y + p.1 * d.y
              if y_min < y0 ∧ y0 < y_max then [(⟨p.1, id⟩ : Intersection)] else []
            let h1 :=
              let y1 := o.y + p.2 * d.y
              if y_min < y1 ∧ y1 < y_max then [(⟨p.2, id⟩ : Intersection)] else []
            h0 ++ h1
          else []
      let caps :=
        if closed ∧ ¬ close_eq ray.direction.y 0 then
          let tl := (y_min - ray.origin.y) / ray.direction.y
          let cl := if coneCheckCap ray tl y_min then [(⟨tl, id⟩ : Intersection)] else []
          let tu := (y_max - ray.origin.y) / ray.direction.y
          let cu := if coneCheckCap ray tu y_max then [(⟨tu, id⟩ : Intersection)] else []
          cl ++ cu
        else []
      lateral ++ caps

/-- Shape::normal_at from src/shape.rs. -/
def normalAt (s : Shape) (p : Tuple) : Tuple :=
  match s with
  | plane => Tuple.vector 0 1 0
  | sphere => p
  | cube =>
      let absx := |p.x|
      let absy := |p.y|
      let absz := |p.z|
      let m := max (max absx absy) absz
      if m = absx then Tuple.vector p.x 0 0
      else if m = absy then Tuple.vector 0 p.y 0
      else Tuple.vector 0 0 p.z
  | cylinder y_min y_max _ =>
      let dist := p.x * p.x + p.z * p.z
      if dist < 1 ∧ y_max - EPSILON ≤ p.y then Tuple.vector 0 1 0
      else if dist < 1 ∧ p.y ≤ y_min + EPSILON then Tuple.vector 0 (-1) 0
      else Tuple.vector p.x 0 p.z
  | cone y_min y_max _ =>
      let dist := p.x * p.x + p.z * p.z
      let max_dist := |p.y|
      if dist < max_dist ∧ y_max - EPSILON ≤ p.y then Tuple.vector 0 1 0
      else if dist < max_dist ∧ p.y ≤ y_min + EPSILON then Tuple.vector 0 (-1) 0
      else
        let y0 := fsqrt (p.x * p.x + p.z * p.z)
        let y1 := if 0 < p.y then -y0 else y0
        Tuple.normalize (Tuple.vector p.x y1 p.z)

end Shape

/-- ObjTag from src/object.rs. -/
inductive ObjTag where
  | shape (s : Shape)
  | group
  | csg (op : CsgOp)
deriving DecidableEq

/-- ObjPool from src/object.rs: six parallel vectors indexed by `Obj`. -/
structure ObjPool where
  tag : List ObjTag
  transform_inverse : List Mat4
  material : List Material
  parent : List (Option Obj)
  left : List (Option Obj)
  right : List (Option Obj)

namespace ObjPool

/-- ObjPool::new. -/
def new : ObjPool := ⟨[], [], [], [], [], []⟩

/-- next_id — the pool's size. -/
def size (p : ObjPool) : Nat := p.tag.length

/-- Vector indexing `self.tag[obj]`.  Rust panics out of bounds; the total
embedding returns a default there (the checked variants below return `none`
instead, and claim C10 shows the default is never read on well-formed pools). -/
def tagAt (p : ObjPool) (o : Obj) : ObjTag := p.tag.getD o ObjTag.group

/-- Vector indexing `self.transform_inverse[obj]`. -/
def tinvAt (p : ObjPool) (o : Obj) : Mat4 := p.transform_inverse.getD o Mat4.identity

/-- Vector indexing `self.material[obj]`. -/
def matAt (p : ObjPool) (o : Obj) : Material := p.material.getD o Material.new

/-- Vector indexing `self.parent[obj]`. -/
def parentAt (p : ObjPool) (o : Obj) : Option Obj := p.parent.getD o none

/-- Vector indexing `self.left[obj]`. -/
def leftAt (p : ObjPool) (o : Obj) : Option Obj := p.left.getD o none

/-- Vector indexing `self.right[obj]`. -/
def rightAt (p : ObjPool) (o : Obj) : Option Obj := p.right.getD o none

end ObjPool

mutual

/-- ObjPool::includes from src/object.rs lines 208-241.  The source recursion
terminates only on acyclic graphs; the embedding makes the recursion explicit
with fuel (each call consumes one unit; `ObjPool.size + 1` units suffice for
every acyclic pool, since along one branch of the walk all visited nodes are
distinct). -/
def ObjPool.includesF (p : ObjPool) : Nat → Obj → Obj → Bool
  | 0, _, _ => false
  | fuel + 1, target, node =>
      if target = node then true
      else
        match p.tagAt node with
        | ObjTag.shape _ => false
        | ObjTag.group => p.includesChildrenF fuel target (p.leftAt node)
        | ObjTag.csg _ =>
            (match p.leftAt node with
             | some l => p.includesF fuel target l
             | none => false) ||
            (match p.rightAt node with
             | some r => p.includesF fuel target r
             | none => false)

/-- The sibling-chain walk of the Group arm of ObjPool::includes. -/
def ObjPool.includesChildrenF (p : ObjPool) : Nat → Obj → Option Obj → Bool
  | _, _, none => false
  | 0, _, some _ => false
  | fuel + 1, target, some c =>
      p.includesF fuel target c || p.includesChildrenF fuel target (p.rightAt c)

end

/-- The CSG inclusion predicate — the boolean expressions of the `match op`
in src/object.rs lines 140-144, verbatim. -/
def csgRule (op : CsgOp) (left_hit in_left in_right : Bool) : Bool :=
  match op with
  | CsgOp.union => left_hit && !in_right || !left_hit && !in_left
  | CsgOp.inter => left_hit && in_right || !left_hit && in_left
  | CsgOp.diff => left_hit && !in_right || !left_hit && in_left

/-- The CSG scan loop of src/object.rs lines 136-153: walk the merged sorted
hit list with state (in_left, in_right), keep the hits the rule selects, and
toggle in_left when the hit came from the left operand, else in_right.
`fromLeft` abstracts the call `obj_pool.includes(x.obj, left)`. -/
def csgScanGo (op : CsgOp) (fromLeft : Intersection → Bool) :
    List Intersection → Bool → Bool → List Intersection
  | [], _, _ => []
  | x :: rest, in_left, in_right =>
      let left_hit := fromLeft x
      let keep := csgRule op left_hit in_left in_right
      let tail :=
        if left_hit then csgScanGo op fromLeft rest (!in_left) in_right
        else csgScanGo op fromLeft rest in_left (!in_right)
      if keep then x :: tail else tail

/-- The CSG scan with both state booleans initially false. -/
def csgScan (op : CsgOp) (fromLeft : Intersection → Bool)
    (xs : List Intersection) : List Intersection :=
  csgScanGo op fromLeft xs false false

/-- The ordering the source sorts intersections by:
`x1.t.partial_cmp(&x2.t)` ascending. -/
def tLe (a b : Intersection) : Prop := a.t ≤ b.t

instance : DecidableRel tLe := fun a b => inferInstanceAs (Decidable (a.t ≤ b.t))

instance : IsTotal Intersection tLe := ⟨fun a b => le_total a.t b.t⟩

instance : IsTrans Intersection tLe := ⟨fun _ _ _ h1 h2 => le_trans h1 h2⟩

/-- Models `Vec::sort_by` on the ascending-t comparator: a stable comparison
sort.  A stable sort's output is uniquely determined by the comparator, so
insertion sort (stable, and structurally recursive hence evaluable) is a
faithful model of the source's stable sort. -/
def sortInts (xs : List Intersection) : List Intersection :=
  List.insertionSort tLe xs

mutual

/-- intersect_rec from src/object.rs lines 116-156, with explicit fuel
exactly as for `ObjPool.includesF`. -/
def ObjPool.intersectRecF (p : ObjPool) : Nat → Obj → Ray → List Intersection
  | 0, _, _ => []
  | fuel + 1, root, ray =>
      let ray2 := ray.transform (p.tinvAt root)
      match p.tagAt root with
      | ObjTag.shape s => s.intersects ray2 root
      | ObjTag.group => p.intersectChildrenF fuel (p.leftAt root) ray2
      | ObjTag.csg op =>
          match p.leftAt root, p.rightAt root with
          | some l, some r =>
              let csgXs := sortInts (p.intersectRecF fuel l ray2 ++ p.intersectRecF fuel r ray2)
              csgScan op (fun x => p.includesF (p.size + 1) x.obj l) csgXs
          | _, _ => []

/-- The sibling-chain walk of the Group arm of intersect_rec. -/
def ObjPool.intersectChildrenF (p : ObjPool) : Nat → Option Obj → Ray → List Intersection
  | _, none, _ => []
  | 0, some _, _ => []
  | fuel + 1, some c, ray =>
      p.intersectRecF fuel c ray ++ p.intersectChildrenF fuel (p.rightAt c) ray

end

/-- The root nodes: ids `0..next_id()` whose parent is `None`. -/
def ObjPool.rootsOf (p : ObjPool) : List Obj :=
  (List.range p.size).filter (fun i => p.parentAt i = none)

/-- ObjPool::intersect from src/object.rs lines 115-170: recurse from every
root, concatenate, and sort the whole list ascending by t at top level. -/
def ObjPool.intersect (p : ObjPool) (ray : Ray) : List Intersection :=
  sortInts (p.rootsOf.flatMap (fun root => p.intersectRecF (p.size + 1) root ray))

/-- ObjPool::world_to_object from src/object.rs lines 184-192: apply ancestor
inverse transforms first (recursing up the parent chain), then the node's
own.  Fueled like the other graph recursions; an acyclic parent chain has at
most `size` nodes, so `ObjPool.size` units of fuel never run out on the pools
the constructors build. -/
def ObjPool.worldToObjectF (p : ObjPool) : Nat → Obj → Tuple → Tuple
  | 0, obj, point => Mat4.mulVec (p.tinvAt obj) point
  | fuel + 1, obj, point =>
      let point2 :=
        match p.parentAt obj with
        | some par => p.worldToObjectF fuel par point
        | none => point
      Mat4.mulVec (p.tinvAt obj) point2

/-- ObjPool::world_to_object at the standard fuel. -/
def ObjPool.worldToObject (p : ObjPool) (obj : Obj) (point : Tuple) : Tuple :=
  p.worldToObjectF p.size obj point

/-- ObjPool::normal_to_world from src/object.rs lines 194-206: multiply by
the transpose of the node's inverse transform, zero the w component,
renormalize, then recurse to the parent. -/
def ObjPool.normalToWorldF (p : ObjPool) : Nat → Obj → Tuple → Tuple
  | 0, obj, normal =>
      let n := Mat4.mulVec (Mat4.transpose (p.tinvAt obj)) normal
      Tuple.normalize { n with w := 0 }
  | fuel + 1, obj, normal =>
      let n := Mat4.mulVec (Mat4.transpose (p.tinvAt obj)) normal
      let n2 := Tuple.normalize { n with w := 0 }
      match p.parentAt obj with
      | some par => p.normalToWorldF fuel par n2
      | none => n2

/-- ObjPool::normal_to_world at the standard fuel. -/
def ObjPool.normalToWorld (p : ObjPool) (obj : Obj) (normal : Tuple) : Tuple :=
  p.normalToWorldF p.size obj normal

/-- ObjPool::normal_at from src/object.rs lines 172-182.  The Group arm
panics and the Csg arm is unimplemented (also a panic); both are modelled as
`none`, a Shape node returns `some` world-space normal. -/
def ObjPool.normalAt (p : ObjPool) (obj : Obj) (world_point : Tuple) : Option Tuple :=
  match p.tagAt obj with
  | ObjTag.shape s =>
      let object_point := p.worldToObject obj world_point
      let object_normal := s.normalAt object_point
      some (p.normalToWorld obj object_normal)
  | ObjTag.group => none
  | ObjTag.csg _ => none

/-- `containers.last()` mapped to its refractive index, default 1.0 (vacuum),
from src/world.rs lines 130-133 and 143-146. -/
def topRefr (p : ObjPool) (containers : List Obj) : ℚ :=
  match containers.getLast? with
  | some o => (p.matAt o).refractive_index
  | none => 1

/-- The enter/exit toggle of src/world.rs lines 136-140: remove the first
occurrence of the object if present, else push it at the end. -/
def toggleContainer (containers : List Obj) (o : Obj) : List Obj :=
  if o ∈ containers then containers.erase o else containers ++ [o]

/-- The n1/n2 containers scan of prepare_computations, src/world.rs lines
123-152.  The loop walks the full intersection list; at the first element
whose t equals the hit's t it reads n1 from the stack top, toggles that
element's object, reads n2 from the new top and breaks.  (Before the match
the interim n1 is never read, and a list with no t-match leaves the initial
pair (1.0, 1.0).) -/
def n1n2Scan (p : ObjPool) (xt : ℚ) : List Intersection → List Obj → ℚ × ℚ
  | [], _ => (1, 1)
  | x1 :: rest, containers =>
      if x1.t = xt then
        let n1 := topRefr p containers
        let containers2 := toggleContainer containers x1.obj
        (n1, topRefr p containers2)
      else
        n1n2Scan p xt rest (toggleContainer containers x1.obj)

/-- Computations from src/world.rs. -/
structure Computations where
  t : ℚ
  object : Obj
  point : Tuple
  over_point : Tuple
  under_point : Tuple
  eyev : Tuple
  normalv : Tuple
  inside : Bool
  reflectv : Tuple
  n1 : ℚ
  n2 : ℚ

/-- prepare_computations from src/world.rs lines 107-166.  `normal_at`
panics on a Group/CSG hit; intersections are only ever created by Shape
nodes, and the Option is collapsed with a default that claim C9's theorem
shows is never used for shape hits. -/
def prepareComputations (x : Intersection) (ray : Ray) (p : ObjPool)
    (intersections : List Intersection) : Computations :=
  let point := ray.position x.t
  let eyev := -ray.direction
  let normalv0 := (p.normalAt x.obj point).getD (Tuple.vector 0 0 0)
  let inside : Bool := Tuple.dot normalv0 eyev < 0
  let normalv := if inside then -normalv0 else normalv0
  let over_point := point + normalv * EPSILON
  let under_point := point - normalv * EPSILON
  let reflectv := ray.direction.reflect normalv
  let n12 := n1n2Scan p x.t intersections []
  { t := x.t, object := x.obj, point := point, over_point := over_point,
    under_point := under_point, eyev := eyev, normalv := normalv,
    inside := inside, reflectv := reflectv, n1 := n12.1, n2 := n12.2 }

/-- schlick from src/world.rs lines 169-189. -/
def schlick (eyev normalv : Tuple) (n1 n2 : ℚ) : ℚ :=
  let cos := Tuple.dot eyev normalv
  if n1 > n2 then
    let n := n1 / n2
    let sin2_t := n * n * (1 - cos * cos)
    if sin2_t > 1 then 1
    else
      let cos_t := fsqrt (1 - sin2_t)
      let r0 := ((n1 - n2) / (n1 + n2)) ^ 2
      let x := 1 - cos_t
      r0 + (1 - r0) * x * x * x * x * x
  else
    let r0 := ((n1 - n2) / (n1 + n2)) ^ 2
    let x := 1 - cos
    r0 + (1 - r0) * x * x * x * x * x

/-- phong from src/light.rs lines 51-71: intensity starts at white times the
ambient coefficient; each light source whose direction makes a positive dot
with the normal adds intensity*diffuse*(l·n), and additionally
intensity*specular*(r·v)^shininess when the reflected-light/eye dot is
positive. -/
def phong (material : Material) (light_sources : List LightSource)
    (normal viewer : Tuple) : Color :=
  light_sources.foldl
    (fun intensity light =>
      let light_dot_normal := Tuple.dot light.direction normal
      if 0 < light_dot_normal then
        let i1 := intensity + light.intensity * material.diffuse * light_dot_normal
        let reflection := (-light.direction).reflect normal
        let reflection_dot_viewer := Tuple.dot reflection viewer
        if 0 < reflection_dot_viewer then
          i1 + light.intensity * material.specular * powQ reflection_dot_viewer material.shininess
        else i1
      else intensity)
    (Color.white * material.ambient)

/-- The LightSource built for one Light in PointLighting::next, src/world.rs
lines 225-239: a point light gets the normalized direction to its position
and the distance; a directional light gets the negated stored direction and
distance `f64::MAX`. -/
def lightSourceAt (point : Tuple) (l : Light) : LightSource :=
  match l with
  | Light.point position intensity =>
      let direction := position - point
      let distance := direction.magnitude
      LightSource.mk intensity direction.normalize distance
  | Light.directional direction intensity =>
      LightSource.mk intensity (-direction) f64MAX

/-- The shadow test of PointLighting::next, src/world.rs lines 241-249: when
the distance is finite, fire the shadow ray and the light is blocked if some
intersection has 0 < t < distance. -/
def lightBlocked (p : ObjPool) (point : Tuple) (ls : LightSource) : Bool :=
  if isFiniteF ls.distance then
    let shadow_ray := Ray.mk point ls.direction
    let xs := p.intersect shadow_ray
    xs.any (fun x => decide (0 < x.t) && decide (x.t < ls.distance))
  else false

/-- Draining the PointLighting iterator (src/world.rs lines 221-257): the
sequence of unblocked light sources, in light-list order.  phong consumes
the iterator completely, so the iterator is equivalent to this list. -/
def unblockedLights (p : ObjPool) (point : Tuple) (lights : List Light) :
    List LightSource :=
  lights.filterMap (fun l =>
    let ls := lightSourceAt point l
    if lightBlocked p point ls then none else some ls)

/-- World from src/world.rs. -/
structure World where
  obj_pool : ObjPool
  lights : List Light

mutual

/-- World::color_at from src/world.rs lines 18-30: intersect the scene, take
the first intersection with t > 0 (`filter(t > 0).nth(0)`), return black when
there is none, else shade the hit. -/
def World.colorAt (w : World) (ray : Ray) (depth : Nat) : Color :=
  let xs := w.obj_pool.intersect ray
  match List.find? (fun x => decide (0 < x.t)) xs with
  | none => Color.black
  | some x => w.shadeHit (prepareComputations x ray w.obj_pool xs) depth
termination_by (depth, 3)
decreasing_by exact Prod.Lex.right depth (by omega)

/-- World::shade_hit from src/world.rs lines 32-54. -/
def World.shadeHit (w : World) (comps : Computations) (depth : Nat) : Color :=
  let light_sources := unblockedLights w.obj_pool comps.over_point w.lights
  let material := w.obj_pool.matAt comps.object
  let color :=
    match material.pattern with
    | some pat => pat.colorAtObject (w.obj_pool.worldToObject comps.object comps.point)
    | none => material.color
  let surface := color * phong material light_sources comps.normalv comps.eyev
  let reflected := w.reflectedColor comps depth
  let refracted := w.refractedColor comps depth
  if 0 < material.reflective ∧ 0 < material.transparency then
    let reflectance := schlick comps.eyev comps.normalv comps.n1 comps.n2
    surface + reflected * reflectance + refracted * (1 - reflectance)
  else
    surface + reflected + refracted
termination_by (depth, 2)
decreasing_by all_goals exact Prod.Lex.right depth (by omega)

/-- World::reflected_color from src/world.rs lines 56-67. -/
def World.reflectedColor (w : World) (comps : Computations) (depth : Nat) : Color :=
  let material := w.obj_pool.matAt comps.object
  if h : depth = 0 ∨ close_eq material.reflective 0 = true then Color.black
  else
    let reflected_ray := Ray.mk comps.over_point comps.reflectv
    w.colorAt reflected_ray (depth - 1) * material.reflective
termination_by (depth, 1)
decreasing_by exact Prod.Lex.left _ _ (by omega)

/-- World::refracted_color from src/world.rs lines 69-90. -/
def World.refractedColor (w : World) (comps : Computations) (depth : Nat) : Color :=
  let material := w.obj_pool.matAt comps.object
  if h : depth = 0 ∨ close_eq material.transparency 0 = true then Color.black
  else
    let nr := comps.n1 / comps.n2
    let cos_i := Tuple.dot comps.eyev comps.normalv
    let sin2_t := nr * nr * (1 - cos_i * cos_i)
    if 1 < sin2_t then Color.black
    else
      let cos_t := fsqrt (1 - sin2_t)
      let direction := comps.normalv * (nr * cos_i - cos_t) - comps.eyev * nr
      let refracted_ray := Ray.mk comps.under_point direction
      w.colorAt refracted_ray (depth - 1) * material.transparency
termination_by (depth, 1)
decreasing_by exact Prod.Lex.left _ _ (by omega)

end

mutual

/-- World::color_at under an explicit call-stack budget: each nested call of
any of the four mutually recursive shading functions consumes one unit of
gas, and `none` means the budget was exhausted before the computation
returned.  Claim C8's theorem shows `3 * depth + 3` units always suffice. -/
def World.colorAtGas (w : World) : Nat → Ray → Nat → Option Color
  | 0, _, _ => none
  | gas + 1, ray, depth =>
      let xs := w.obj_pool.intersect ray
      match List.find? (fun x => decide (0 < x.t)) xs with
      | none => some Color.black
      | some x => w.shadeHitGas gas (prepareComputations x ray w.obj_pool xs) depth

/-- World::shade_hit under an explicit call-stack budget. -/
def World.shadeHitGas (w : World) : Nat → Computations → Nat → Option Color
  | 0, _, _ => none
  | gas + 1, comps, depth =>
      let light_sources := unblockedLights w.obj_pool comps.over_point w.lights
      let material := w.obj_pool.matAt comps.object
      let color :=
        match material.pattern with
        | some pat => pat.colorAtObject (w.obj_pool.worldToObject comps.object comps.point)
        | none => material.color
      let surface := color * phong material light_sources comps.normalv comps.eyev
      match w.reflectedColorGas gas comps depth, w.refractedColorGas gas comps depth with
      | some reflected, some refracted =>
          if 0 < material.reflective ∧ 0 < material.transparency then
            let reflectance := schlick comps.eyev comps.normalv comps.n1 comps.n2
            some (surface + reflected * reflectance + refracted * (1 - reflectance))
          else
            some (surface + reflected + refracted)
      | _, _ => none

/-- World::reflected_color under an explicit call-stack budget. -/
def World.reflectedColorGas (w : World) : Nat → Computations → Nat → Option Color
  | 0, _, _ => none
  | gas + 1, comps, depth =>
      let material := w.obj_pool.matAt comps.object
      if depth = 0 ∨ close_eq material.reflective 0 = true then some Color.black
      else
        let reflected_ray := Ray.mk comps.over_point comps.reflectv
        (w.colorAtGas gas reflected_ray (depth - 1)).map (fun c => c * material.reflective)

/-- World::refracted_color under an explicit call-stack budget. -/
def World.refractedColorGas (w : World) : Nat → Computations → Nat → Option Color
  | 0, _, _ => none
  | gas + 1, comps, depth =>
      let material := w.obj_pool.matAt comps.object
      if depth = 0 ∨ close_eq material.transparency 0 = true then some Color.black
      else
        let nr := comps.n1 / comps.n2
        let cos_i := Tuple.dot comps.eyev comps.normalv
        let sin2_t := nr * nr * (1 - cos_i * cos_i)
        if 1 < sin2_t then some Color.black
        else
          let cos_t := fsqrt (1 - sin2_t)
          let direction := comps.normalv * (nr * cos_i - cos_t) - comps.eyev * nr
          let refracted_ray := Ray.mk comps.under_point direction
          (w.colorAtGas gas refracted_ray (depth - 1)).map (fun c => c * material.transparency)

end

/-- ObjPool::add from src/object.rs lines 69-80: push one entry onto each of
the six parallel vectors and return the new id.  `Matrix::inverse` (spec §1:
the 4x4 matrix algebra is an external collaborator) is applied by the caller
of this model, so `tinv` is the already-inverted transform that the source
computes with `transform.inverse()`. -/
def ObjPool.push (p : ObjPool) (tag : ObjTag) (tinv : Mat4) (m : Material) : ObjPool :=
  { tag := p.tag ++ [tag],
    transform_inverse := p.transform_inverse ++ [tinv],
    material := p.material ++ [m],
    parent := p.parent ++ [none],
    left := p.left ++ [none],
    right := p.right ++ [none] }

/-- ObjPool::add_shape. -/
def ObjPool.addShape (p : ObjPool) (s : Shape) (tinv : Mat4) (m : Material) : ObjPool :=
  p.push (ObjTag.shape s) tinv m

/-- ObjPool::add_group. -/
def ObjPool.addGroup (p : ObjPool) (tinv : Mat4) : ObjPool :=
  p.push ObjTag.group tinv Material.new

/-- The `while let Some(sibling) = self.right[c]` walk of ObjPool::add_child,
fueled like the other graph walks. -/
def ObjPool.lastSibling (p : ObjPool) : Nat → Obj → Obj
  | 0, c => c
  | fuel + 1, c =>
      match p.rightAt c with
      | none => c
      | some sibling => p.lastSibling fuel sibling

/-- ObjPool::add_child from src/object.rs lines 90-104: set the child's
parent, then either hang the child off the parent's first-child slot or walk
the sibling chain and append it. -/
def ObjPool.addChild (p : ObjPool) (parent child : Obj) : ObjPool :=
  let p1 := { p with parent := p.parent.set child (some parent) }
  match p1.leftAt parent with
  | some first_child =>
      let c := p1.lastSibling p1.size first_child
      { p1 with right := p1.right.set c (some child) }
  | none =>
      { p1 with left := p1.left.set parent (some child) }

/-- ObjPool::add_csg from src/object.rs lines 106-113. -/
def ObjPool.addCsg (p : ObjPool) (op : CsgOp) (tinv : Mat4) (l r : Obj) : ObjPool :=
  let p1 := p.push (ObjTag.csg op) tinv Material.new
  let csg := p.size
  { p1 with
    parent := (p1.parent.set l (some csg)).set r (some csg),
    left := p1.left.set csg (some l),
    right := p1.right.set csg (some r) }

/-- One construction call on the arena. -/
inductive BuildOp where
  | addShape (s : Shape) (tinv : Mat4) (m : Material)
  | addGroup (tinv : Mat4)
  | addChild (parent child : Obj)
  | addCsg (op : CsgOp) (tinv : Mat4) (l r : Obj)

/-- Apply one construction call. -/
def ObjPool.applyOp (p : ObjPool) : BuildOp → ObjPool
  | BuildOp.addShape s tinv m => p.addShape s tinv m
  | BuildOp.addGroup tinv => p.addGroup tinv
  | BuildOp.addChild parent child => p.addChild parent child
  | BuildOp.addCsg op tinv l r => p.addCsg op tinv l r

/-- The handle arguments of the call were previously returned by the pool,
i.e. are below the current size. -/
def opValidB (p : ObjPool) : BuildOp → Bool
  | BuildOp.addShape _ _ _ => true
  | BuildOp.addGroup _ => true
  | BuildOp.addChild parent child => decide (parent < p.size) && decide (child < p.size)
  | BuildOp.addCsg _ _ l r => decide (l < p.size) && decide (r < p.size)

/-- Every call in the sequence has valid handle arguments at the time it is
applied. -/
def opsValidB (p : ObjPool) : List BuildOp → Bool
  | [] => true
  | op :: rest => opValidB p op && opsValidB (p.applyOp op) rest

/-- Fold a construction sequence over the empty pool. -/
def buildPool (ops : List BuildOp) : ObjPool :=
  ops.foldl ObjPool.applyOp ObjPool.new

/-- A stored handle is either absent or a valid index. -/
def handleOk (n : Nat) : Option Obj → Bool
  | none => true
  | some v => decide (v < n)

/-- Arena well-formedness: the six parallel vectors have equal length, every
handle stored in parent/left/right is a valid index, and every CSG node has
both children present (so the `unwrap`s in the CSG arm of intersect_rec
cannot fail). -/
def ObjPool.wfB (p : ObjPool) : Bool :=
  decide (p.transform_inverse.length = p.size) &&
  decide (p.material.length = p.size) &&
  decide (p.parent.length = p.size) &&
  decide (p.left.length = p.size) &&
  decide (p.right.length = p.size) &&
  p.parent.all (handleOk p.size) &&
  p.left.all (handleOk p.size) &&
  p.right.all (handleOk p.size) &&
  (List.range p.size).all (fun i =>
    match p.tagAt i with
    | ObjTag.csg _ => (p.leftAt i).isSome && (p.rightAt i).isSome
    | _ => true)

mutual

/-- ObjPool::includes with checked vector indexing: `none` records an
out-of-bounds index (a panic in the source), `some b` a normal return. -/
def ObjPool.includesFC (p : ObjPool) : Nat → Obj → Obj → Option Bool
  | 0, _, _ => some false
  | fuel + 1, target, node =>
      if target = node then some true
      else
        match p.tag[node]? with
        | none => none
        | some (ObjTag.shape _) => some false
        | some ObjTag.group =>
            match p.left[node]? with
            | none => none
            | some l => p.includesChildrenFC fuel target l
        | some (ObjTag.csg _) =>
            match p.left[node]?, p.right[node]? with
            | some lo, some ro => do
                let lb ← match lo with
                  | some l => p.includesFC fuel target l
                  | none => some false
                if lb then some true
                else
                  match ro with
                  | some r => p.includesFC fuel target r
                  | none => some false
            | _, _ => none

/-- The sibling-chain walk of ObjPool::includes, checked. -/
def ObjPool.includesChildrenFC (p : ObjPool) : Nat → Obj → Option Obj → Option Bool
  | _, _, none => some false
  | 0, _, some _ => some false
  | fuel + 1, target, some c => do
      let b ← p.includesFC fuel target c
      if b then some true
      else
        match p.right[c]? with
        | none => none
        | some nxt => p.includesChildrenFC fuel target nxt

end

/-- The CSG scan loop with a fallible fromLeft test (`none` propagates a
panic inside `obj_pool.includes`). -/
def csgScanGoC (op : CsgOp) (fromLeft : Intersection → Option Bool) :
    List Intersection → Bool → Bool → Option (List Intersection)
  | [], _, _ => some []
  | x :: rest, in_left, in_right => do
      let left_hit ← fromLeft x
      let keep := csgRule op left_hit in_left in_right
      let tail ←
        if left_hit then csgScanGoC op fromLeft rest (!in_left) in_right
        else csgScanGoC op fromLeft rest in_left (!in_right)
      some (if keep then x :: tail else tail)

mutual

/-- intersect_rec with checked vector indexing and checked `unwrap` of a CSG
node's children: `none` records a panic, `some xs` a normal return. -/
def ObjPool.intersectRecC (p : ObjPool) : Nat → Obj → Ray → Option (List Intersection)
  | 0, _, _ => some []
  | fuel + 1, root, ray =>
      match p.transform_inverse[root]? with
      | none => none
      | some tinv =>
          let ray2 := ray.transform tinv
          match p.tag[root]? with
          | none => none
          | some (ObjTag.shape s) => some (s.intersects ray2 root)
          | some ObjTag.group =>
              match p.left[root]? with
              | none => none
              | some l => p.intersectChildrenC fuel l ray2
          | some (ObjTag.csg op) =>
              match p.left[root]?, p.right[root]? with
              | some lo, some ro =>
                  match lo, ro with
                  | some l, some r => do
                      let lxs ← p.intersectRecC fuel l ray2
                      let rxs ← p.intersectRecC fuel r ray2
                      let csgXs := sortInts (lxs ++ rxs)
                      csgScanGoC op (fun x => p.includesFC (p.size + 1) x.obj l) csgXs false false
                  | _, _ => none
              | _, _ => none

/-- The sibling-chain walk of the Group arm of intersect_rec, checked. -/
def ObjPool.intersectChildrenC (p : ObjPool) : Nat → Option Obj → Ray → Option (List Intersection)
  | _, none, _ => some []
  | 0, some _, _ => some []
  | fuel + 1, some c, ray => do
      let xs ← p.intersectRecC fuel c ray
      match p.right[c]? with
      | none => none
      | some nxt => do
          let rest ← p.intersectChildrenC fuel nxt ray
          some (xs ++ rest)

end

/-- The per-root loop of ObjPool::intersect, checked. -/
def ObjPool.intersectRootsC (p : ObjPool) (ray : Ray) : List Obj → Option (List Intersection)
  | [] => some []
  | root :: rest => do
      let xs ← p.intersectRecC (p.size + 1) root ray
      let ys ← p.intersectRootsC ray rest
      some (xs ++ ys)

/-- ObjPool::intersect with checked indexing throughout. -/
def ObjPool.intersectC (p : ObjPool) (ray : Ray) : Option (List Intersection) := do
  let xs ← p.intersectRootsC ray p.rootsOf
  some (sortInts xs)

/-- ObjPool::world_to_object with checked vector indexing. -/
def ObjPool.worldToObjectFC (p : ObjPool) : Nat → Obj → Tuple → Option Tuple
  | 0, obj, point => (p.transform_inverse[obj]?).map (fun m => Mat4.mulVec m point)
  | fuel + 1, obj, point => do
      let par ← p.parent[obj]?
      let point2 ←
        match par with
        | some parObj => p.worldToObjectFC fuel parObj point
        | none => some point
      let m ← p.transform_inverse[obj]?
      some (Mat4.mulVec m point2)

/-- ObjPool::normal_to_world with checked vector indexing. -/
def ObjPool.normalToWorldFC (p : ObjPool) : Nat → Obj → Tuple → Option Tuple
  | 0, obj, normal =>
      (p.transform_inverse[obj]?).map (fun m =>
        let n := Mat4.mulVec (Mat4.transpose m) normal
        Tuple.normalize { n with w := 0 })
  | fuel + 1, obj, normal => do
      let m ← p.transform_inverse[obj]?
      let n := Mat4.mulVec (Mat4.transpose m) normal
      let n2 := Tuple.normalize { n with w := 0 }
      let par ← p.parent[obj]?
      match par with
      | some parObj => p.normalToWorldFC fuel parObj n2
      | none => some n2

/-- ObjPool::normal_at with checked vector indexing: the outer Option records
an out-of-bounds index, the inner Option the deliberate panic on a
non-surface node exactly as in `ObjPool.normalAt`. -/
def ObjPool.normalAtC (p : ObjPool) (obj : Obj) (world_point : Tuple) :
    Option (Option Tuple) :=
  match p.tag[obj]? with
  | none => none
  | some (ObjTag.shape s) => do
      let object_point ← p.worldToObjectFC p.size obj world_point
      let object_normal := s.normalAt object_point
      let n ← p.normalToWorldFC p.size obj object_normal
      some (some n)
  | some ObjTag.group => some none
  | some (ObjTag.csg _) => some none

/-- The discriminant computed inline by the Sphere arm of Shape::intersects,
named so the sign test can be talked about. -/
def sphereDiscriminant (ray : Ray) : ℚ :=
  let sphere_to_ray := ray.origin - Tuple.point 0 0 0
  let a := Tuple.dot ray.direction ray.direction
  let b := 2 * Tuple.dot ray.direction sphere_to_ray
  let c := Tuple.dot sphere_to_ray sphere_to_ray - 1
  b * b - 4 * a * c

/-- The discriminant computed inline by the Cylinder arm of Shape::intersects
(reached when the lateral coefficient a is not within EPSILON of zero). -/
def cylinderDiscriminant (ray : Ray) : ℚ :=
  let a := ray.direction.x * ray.direction.x + ray.direction.z * ray.direction.z
  let b := 2 * ray.origin.x * ray.direction.x + 2 * ray.origin.z * ray.direction.z
  let c := ray.origin.x * ray.origin.x + ray.origin.z * ray.origin.z - 1
  b * b - 4 * a * c

/-- The discriminant computed inline by the Cone arm of Shape::intersects
(reached in the branch where the coefficient a is not within EPSILON of
zero). -/
def coneDiscriminant (ray : Ray) : ℚ :=
  let a := ray.direction.x * ray.direction.x - ray.direction.y * ray.direction.y +
    ray.direction.z * ray.direction.z
  let b := 2 * ray.origin.x * ray.direction.x - 2 * ray.origin.y * ray.direction.y +
    2 * ray.origin.z * ray.direction.z
  let c := ray.origin.x * ray.origin.x - ray.origin.y * ray.origin.y +
    ray.origin.z * ray.origin.z
  b * b - 4 * a * c

/-- The resolved surface color of World::shade_hit: the pattern sampled at
the object-space point when the material carries a pattern, else the
material's flat color. -/
def resolvedColor (w : World) (comps : Computations) : Color :=
  let material := w.obj_pool.matAt comps.object
  match material.pattern with
  | some pat => pat.colorAtObject (w.obj_pool.worldToObject comps.object comps.point)
  | none => material.color

/-- The `surface` term of World::shade_hit: the resolved surface color times
the whole phong sum (src/world.rs line 44). -/
def surfaceColorTerm (color : Color) (material : Material)
    (light_sources : List LightSource) (normal viewer : Tuple) : Color :=
  color * phong material light_sources normal viewer

/-- Odd parity of a count. -/
def parityOdd (n : Nat) : Bool := decide (n % 2 = 1)

/-- The in_left state of the CSG scan just before processing element i: the
scan has toggled in_left once per earlier left-operand hit, so starting from
false the state is the parity of that count. -/
def inLeftAt (fromLeft : Intersection → Bool) (xs : List Intersection) (i : Nat) : Bool :=
  parityOdd ((xs.take i).countP fromLeft)

/-- The in_right state of the CSG scan just before processing element i. -/
def inRightAt (fromLeft : Intersection → Bool) (xs : List Intersection) (i : Nat) : Bool :=
  parityOdd ((xs.take i).countP (fun x => !fromLeft x))

/-- Default intersection used for positional indexing in statements. -/
def defaultHit : Intersection := ⟨0, 0⟩

/-- The containers stack of the claims' n1/n2 walk after the first i
elements of the list have been toggled in/out. -/
def containersAt (xs : List Intersection) (i : Nat) : List Obj :=
  (xs.take i).foldl (fun cs x => toggleContainer cs x.obj) []

/-- The claims' description of the refractive-index resolution, read at
position i of the intersection list: n1 is the refractive index of the stack
top just before toggling element i's object (1.0 when empty), n2 the top
after the toggle (1.0 when empty). -/
def n1n2SpecAt (p : ObjPool) (xs : List Intersection) (i : Nat) : ℚ × ℚ :=
  let cs := containersAt xs i
  (topRefr p cs, topRefr p (toggleContainer cs (xs.getD i defaultHit).obj))

/-- sin2_t of refracted_color (Snell's law): (n1/n2)^2 (1 - cos_i^2) with
cos_i = eye·normal. -/
def snellSin2 (comps : Computations) : ℚ :=
  (comps.n1 / comps.n2) * (comps.n1 / comps.n2) *
    (1 - Tuple.dot comps.eyev comps.normalv * Tuple.dot comps.eyev comps.normalv)

/-- The refracted direction of refracted_color:
normal*(n_ratio*cos_i - cos_t) - eye*n_ratio with cos_t = sqrt(1 - sin2_t). -/
def snellDirection (comps : Computations) : Tuple :=
  comps.normalv *
      ((comps.n1 / comps.n2) * Tuple.dot comps.eyev comps.normalv - fsqrt (1 - snellSin2 comps)) -
    comps.eyev * (comps.n1 / comps.n2)

/-- A one-plane pool (identity transform, default material): the occluder of
the C1 scene. -/
def planePool : ObjPool :=
  ObjPool.new.addShape Shape.plane Mat4.identity Material.new

/-- The directional light of the C1 scene, built by Light::new_directional
with direction straight down. -/
def downLight : Light :=
  Light.new_directional (Tuple.vector 0 (-1) 0) Color.white

/-- A purely specular material: ambient and diffuse 0, specular 1,
shininess 1 (so powf is exact), no reflection/transparency, no pattern. -/
def specMaterial : Material :=
  { color := Color.white, ambient := 0, diffuse := 0, specular := 1,
    shininess := 1, reflective := 0, transparency := 0,
    refractive_index := 1, pattern := none }

/-- A white light source straight above, one unit away. -/
def overheadSource : LightSource :=
  { intensity := Color.white, direction := Tuple.vector 0 1 0, distance := 1 }

/-- The near-tangent sphere ray of the C7 counterexample: its discriminant is
negative but within EPSILON of zero. -/
def nearTangentRay : Ray :=
  { origin := Tuple.point 0 (10000001 / 10000000) (-5),
    direction := Tuple.vector 0 0 1 }

/-- A half-transparent glass material (transparency 1/2, refractive index
3/2). -/
def glassMaterial : Material :=
  { color := Color.white, ambient := 1/10, diffuse := 9/10, specular := 9/10,
    shininess := 200, reflective := 0, transparency := 1/2,
    refractive_index := 3/2, pattern := none }

/-- A one-sphere pool carrying the glass material. -/
def glassPool : ObjPool :=
  ObjPool.new.addShape Shape.sphere Mat4.identity glassMaterial

/-- A world holding the glass sphere and no lights. -/
def glassWorld : World := { obj_pool := glassPool, lights := [] }

/-- Computation state hitting the glass sphere head on (n1 = 1 entering
n2 = 3/2, eye along the normal): no total internal reflection. -/
def glassComps : Computations :=
  { t := 1, object := 0, point := Tuple.point 0 1 0,
    over_point := Tuple.point 0 1 0 + Tuple.vector 0 1 0 * EPSILON,
    under_point := Tuple.point 0 1 0 - Tuple.vector 0 1 0 * EPSILON,
    eyev := Tuple.vector 0 1 0, normalv := Tuple.vector 0 1 0,
    inside := false, reflectv := Tuple.vector 0 1 0,
    n1 := 1, n2 := 3/2 }

/-- A material whose reflective and transparency coefficients are positive
but within EPSILON of zero: shade_hit's exact Schlick-branch test
(`reflective > 0.0 && transparency > 0.0`) fires on it even though close_eq
sends both bounce colors to black. -/
def tinyCoefMaterial : Material :=
  { Material.new with
    reflective := EPSILON / 2, transparency := EPSILON / 2, refractive_index := 3/2 }

/-- A one-sphere pool carrying the tiny-coefficient material. -/
def tinyCoefPool : ObjPool :=
  ObjPool.new.addShape Shape.sphere Mat4.identity tinyCoefMaterial

/-- A world holding the tiny-coefficient sphere and no lights. -/
def tinyCoefWorld : World := { obj_pool := tinyCoefPool, lights := [] }

/-- Computation state exiting the glass (n1 = 3/2, n2 = 1) at a grazing
angle: sin2_t = (3/2)^2 (1 - (1/2)^2) = 27/16 > 1, total internal
reflection. -/
def tirComps : Computations :=
  { t := 1, object := 0, point := Tuple.point 0 1 0,
    over_point := Tuple.point 0 1 0 + Tuple.vector 0 1 0 * EPSILON,
    under_point := Tuple.point 0 1 0 - Tuple.vector 0 1 0 * EPSILON,
    eyev := Tuple.vector 0 (1/2) 0, normalv := Tuple.vector 0 1 0,
    inside := true, reflectv := Tuple.vector 0 1 0,
    n1 := 3/2, n2 := 1 }

/-- Materials with distinct refractive indices for the C4 counterexample. -/
def refrMaterial2 : Material :=
  { Material.new with transparency := 1, refractive_index := 2 }

/-- Second distinct-index material for the C4 counterexample. -/
def refrMaterial3 : Material :=
  { Material.new with transparency := 1, refractive_index := 3 }

/-- Two overlapping glass spheres with refractive indices 2 and 3. -/
def twoGlassPool : ObjPool :=
  (ObjPool.new.addShape Shape.sphere Mat4.identity refrMaterial2).addShape
    Shape.sphere Mat4.identity refrMaterial3

/-- An intersection list in which two different objects share t = 1: the
degenerate tie that separates the source's t-matched scan from the claim's
target-position walk. -/
def tiedHits : List Intersection := [⟨1, 0⟩, ⟨1, 1⟩]

/-- A pool with a group at index 0 and a sphere at index 1 (the sphere is
deliberately left a root: only the tags matter to normal_at's dispatch). -/
def groupSpherePool : ObjPool :=
  (ObjPool.new.addGroup Mat4.identity).addShape Shape.sphere Mat4.identity Material.new

/-- A world holding only the single plane, lit by the directional light. -/
def planeWorld : World := { obj_pool := planePool, lights := [downLight] }

/-- An intersection list with pairwise-distinct t values over the two glass
spheres. -/
def distinctHits : List Intersection := [⟨1, 0⟩, ⟨2, 1⟩]

/-- A probe ray along +z from the origin. -/
def zRay : Ray := Ray.mk (Tuple.point 0 0 0) (Tuple.vector 0 0 1)

/-- A half-mirror material. -/
def mirrorMaterial : Material := { Material.new with reflective := 1/2 }

/-- Cached inverse of translation(0, 2, 0): the second mirror plane sits two
units above the first. -/
def mirrorTinv : Mat4 :=
  ⟨⟨1, 0, 0, 0⟩, ⟨0, 1, 0, -2⟩, ⟨0, 0, 1, 0⟩, ⟨0, 0, 0, 1⟩⟩

/-- Two parallel mirror planes facing each other (y = 0 and y = 2), no
lights: the scene of the spec's termination test. -/
def mirrorWorld : World :=
  { obj_pool :=
      (ObjPool.new.addShape Shape.plane Mat4.identity mirrorMaterial).addShape
        Shape.plane mirrorTinv mirrorMaterial,
    lights := [] }

/-- A CSG union of two unit spheres (handles 0 and 1, the CSG node at
handle 2), built through the construction API. -/
def csgPool : ObjPool :=
  ((ObjPool.new.addShape Shape.sphere Mat4.identity Material.new).addShape
      Shape.sphere Mat4.identity Material.new).addCsg
    CsgOp.union Mat4.identity 0 1

/-- A construction sequence exercising every arena operation: a group, a
sphere child hung onto it, a free plane, and a CSG union of the sphere and
the plane. -/
def buildOps10 : List BuildOp :=
  [BuildOp.addGroup Mat4.identity,
   BuildOp.addShape Shape.sphere Mat4.identity Material.new,
   BuildOp.addChild 0 1,
   BuildOp.addShape Shape.plane Mat4.identity Material.new,
   BuildOp.addCsg CsgOp.union Mat4.identity 1 2]

/-- C1: the claim states a directional light is never suppressed by the
shadow test.  In the source the guard is `light_source.distance.is_finite()`
with `distance = f64::MAX` — and `f64::MAX` IS finite, so the guard never
skips the shadow trace and an occluder with 0 < t < f64::MAX suppresses the
directional light.  Concretely: a plane at y = 0 above the shaded point
(0,-2,0) blocks the straight-down directional light, so the drained light
iterator is empty and the light's Phong contribution is lost. -/
theorem c1_directional_light_shadow_blocked :
    isFiniteF f64MAX = true ∧
    lightSourceAt (Tuple.point 0 (-2) 0) downLight =
      { intensity := Color.white, direction := Tuple.vector 0 1 0, distance := f64MAX } ∧
    planePool.intersect (Ray.mk (Tuple.point 0 (-2) 0) (Tuple.vector 0 1 0)) =
      [⟨2, 0⟩] ∧
    unblockedLights planePool (Tuple.point 0 (-2) 0) [downLight] = [] := by
  decide

/-- C2 counterexample: with ambient = diffuse = 0 the surface term of
shade_hit is pure specular, and the claim says it is independent of the
surface color; but the source computes `color * phong(..)`, so a black
surface extinguishes the specular highlight that a white surface shows. -/
theorem c2_counterexample :
    specMaterial.ambient = 0 ∧ specMaterial.diffuse = 0 ∧
    surfaceColorTerm Color.white specMaterial [overheadSource]
      (Tuple.vector 0 1 0) (Tuple.vector 0 1 0) = Color.white ∧
    surfaceColorTerm Color.black specMaterial [overheadSource]
      (Tuple.vector 0 1 0) (Tuple.vector 0 1 0) = Color.black ∧
    surfaceColorTerm Color.black specMaterial [overheadSource]
        (Tuple.vector 0 1 0) (Tuple.vector 0 1 0) ≠
      surfaceColorTerm Color.white specMaterial [overheadSource]
        (Tuple.vector 0 1 0) (Tuple.vector 0 1 0) := by
  decide

/-- C2 amended: the resolved surface color multiplies the whole Phong sum —
for one unblocked light source with the light above the horizon and a
positive reflection/eye dot, the surface term is the surface color times
(white*ambient + intensity*diffuse*(l·n) + intensity*specular*(r·v)^shin);
in particular the specular term IS modulated by the surface color. -/
theorem c2_surface_scales_phong (c : Color) (m : Material) (L : LightSource)
    (n e : Tuple) (h1 : 0 < Tuple.dot L.direction n)
    (h2 : 0 < Tuple.dot ((-L.direction).reflect n) e) :
    surfaceColorTerm c m [L] n e =
      c * (Color.white * m.ambient
           + L.intensity * m.diffuse * Tuple.dot L.direction n
           + L.intensity * m.specular
               * powQ (Tuple.dot ((-L.direction).reflect n) e) m.shininess) := by
  simp only [surfaceColorTerm, phong, List.foldl_cons, List.foldl_nil, if_pos h1, if_pos h2]

/-- C2 amended, witnessed at the counterexample scene: black surface,
purely specular material, overhead light. -/
theorem c2_surface_scales_phong_witness :
    surfaceColorTerm Color.black specMaterial [overheadSource]
      (Tuple.vector 0 1 0) (Tuple.vector 0 1 0) =
      Color.black * (Color.white * specMaterial.ambient
        + overheadSource.intensity * specMaterial.diffuse
            * Tuple.dot overheadSource.direction (Tuple.vector 0 1 0)
        + overheadSource.intensity * specMaterial.specular
            * powQ (Tuple.dot ((-overheadSource.direction).reflect (Tuple.vector 0 1 0))
                     (Tuple.vector 0 1 0)) specMaterial.shininess) :=
  c2_surface_scales_phong Color.black specMaterial overheadSource
    (Tuple.vector 0 1 0) (Tuple.vector 0 1 0) (by decide) (by decide)

/-- C7 counterexample: a ray whose sphere discriminant is negative but
within EPSILON of zero yields no intersections — the discriminant sign test
compares exactly against 0.0, not within the shared epsilon as the claim
requires. -/
theorem c7_counterexample :
    close_eq (sphereDiscriminant nearTangentRay) 0 = true ∧
    sphereDiscriminant nearTangentRay < 0 ∧
    Shape.intersects Shape.sphere nearTangentRay 7 = [] := by
  decide

/-- C7 amended: the shared EPSILON (via close_eq) governs the plane-parallel
test, the cube slab near-zero-direction test (the slab bounds are finite
divisions exactly when the direction component's magnitude reaches EPSILON,
and numerator-times-infinity values otherwise), the cylinder
degenerate-coefficient skip (a within EPSILON of 0 yields no lateral hits),
the cone degenerate-coefficient skip (a and b both within EPSILON of 0), and
the cap-parallel gate of the closed cylinder/cone caps (direction.y within
EPSILON of 0 disables the caps), as well as the reflective/transparency
near-zero early returns of reflected_color/refracted_color; but the sphere,
cylinder and cone discriminant sign tests, the cap-containment radius tests,
and shade_hit's Schlick-branch coefficient test
(`reflective > 0.0 && transparency > 0.0`) compare exactly against zero,
epsilon playing no part. -/
theorem c7_amended :
    (∀ ray id, Shape.intersects Shape.plane ray id = [] ↔ |ray.direction.y| < EPSILON) ∧
    (∀ ray id, Shape.intersects Shape.sphere ray id = [] ↔ sphereDiscriminant ray < 0) ∧
    (∀ o d, (∃ a b, Shape.checkAxis o d = (SlabVal.fin a, SlabVal.fin b)) ↔
       EPSILON ≤ |d|) ∧
    (∀ (ray : Ray) (id : Obj) (y_min y_max : ℚ),
       close_eq (ray.direction.x * ray.direction.x +
         ray.direction.z * ray.direction.z) 0 = true →
       Shape.intersects (Shape.cylinder y_min y_max false) ray id = []) ∧
    (∀ (ray : Ray) (id : Obj) (y_min y_max : ℚ),
       close_eq (ray.direction.x * ray.direction.x - ray.direction.y * ray.direction.y +
         ray.direction.z * ray.direction.z) 0 = true →
       close_eq (2 * ray.origin.x * ray.direction.x - 2 * ray.origin.y * ray.direction.y +
         2 * ray.origin.z * ray.direction.z) 0 = true →
       Shape.intersects (Shape.cone y_min y_max false) ray id = []) ∧
    (∀ (ray : Ray) (id : Obj) (y_min y_max : ℚ),
       close_eq (ray.direction.x * ray.direction.x +
         ray.direction.z * ray.direction.z) 0 = false →
       cylinderDiscriminant ray < 0 →
       Shape.intersects (Shape.cylinder y_min y_max false) ray id = []) ∧
    (∀ (ray : Ray) (id : Obj) (y_min y_max : ℚ),
       close_eq (ray.direction.x * ray.direction.x - ray.direction.y * ray.direction.y +
         ray.direction.z * ray.direction.z) 0 = false →
       coneDiscriminant ray < 0 →
       Shape.intersects (Shape.cone y_min y_max false) ray id = []) ∧
    (∀ (ray : Ray) (id : Obj) (y_min y_max : ℚ),
       close_eq ray.direction.y 0 = true →
       Shape.intersects (Shape.cylinder y_min y_max true) ray id =
         Shape.intersects (Shape.cylinder y_min y_max false) ray id) ∧
    (∀ (ray : Ray) (id : Obj) (y_min y_max : ℚ),
       close_eq ray.direction.y 0 = true →
       Shape.intersects (Shape.cone y_min y_max true) ray id =
         Shape.intersects (Shape.cone y_min y_max false) ray id) ∧
    (∀ (r : Ray) (t : ℚ),
       1 < (r.origin.x + t * r.direction.x) * (r.origin.x + t * r.direction.x) +
         (r.origin.z + t * r.direction.z) * (r.origin.z + t * r.direction.z) →
       Shape.cylCheckCap r t = false) ∧
    (∀ (r : Ray) (t y : ℚ),
       |y| < (r.origin.x + t * r.direction.x) * (r.origin.x + t * r.direction.x) +
         (r.origin.z + t * r.direction.z) * (r.origin.z + t * r.direction.z) →
       Shape.coneCheckCap r t y = false) ∧
    (∀ (w : World) (comps : Computations) (depth : Nat),
       close_eq (w.obj_pool.matAt comps.object).reflective 0 = true →
       w.reflectedColor comps depth = Color.black) ∧
    (∀ (w : World) (comps : Computations) (depth : Nat),
       close_eq (w.obj_pool.matAt comps.object).transparency 0 = true →
       w.refractedColor comps depth = Color.black) ∧
    (∀ (w : World) (comps : Computations) (depth : Nat),
       0 < (w.obj_pool.matAt comps.object).reflective →
       0 < (w.obj_pool.matAt comps.object).transparency →
       w.shadeHit comps depth =
         resolvedColor w comps *
             phong (w.obj_pool.matAt comps.object)
               (unblockedLights w.obj_pool comps.over_point w.lights)
               comps.normalv comps.eyev +
           w.reflectedColor comps depth *
             schlick comps.eyev comps.normalv comps.n1 comps.n2 +
           w.refractedColor comps depth *
             (1 - schlick comps.eyev comps.normalv comps.n1 comps.n2)) ∧
    (∀ (w : World) (comps : Computations) (depth : Nat),
       ¬ (0 < (w.obj_pool.matAt comps.object).reflective ∧
          0 < (w.obj_pool.matAt comps.object).transparency) →
       w.shadeHit comps depth =
         resolvedColor w comps *
             phong (w.obj_pool.matAt comps.object)
               (unblockedLights w.obj_pool comps.over_point w.lights)
               comps.normalv comps.eyev +
           w.reflectedColor comps depth + w.refractedColor comps depth) := by
  refine ⟨?_, ?_, ?_, ?_, ?_, ?_, ?_, ?_, ?_, ?_, ?_, ?_, ?_, ?_, ?_⟩
  · intro ray id
    simp only [Shape.intersects]
    split
    · simp_all
    · simp_all
  · intro ray id
    simp only [Shape.intersects, sphereDiscriminant]
    split
    · simp_all
    · simp_all
  · intro o d
    constructor
    · rintro ⟨a, b, hab⟩
      by_contra hlt
      have hm : ∀ (q c : ℚ), SlabVal.mulInf q ≠ SlabVal.fin c := by
        intro q c
        unfold SlabVal.mulInf
        split_ifs <;> simp
      simp only [Shape.checkAxis] at hab
      rw [if_neg hlt] at hab
      split_ifs at hab <;> exact hm _ _ (congrArg Prod.fst hab)
    · intro hd
      simp only [Shape.checkAxis]
      rw [if_pos hd]
      split_ifs
      · exact ⟨_, _, rfl⟩
      · exact ⟨_, _, rfl⟩
  · intro ray id y_min y_max h
    simp [Shape.intersects, h]
  · intro ray id y_min y_max ha hb
    simp [Shape.intersects, ha, hb]
  · intro ray id y_min y_max ha hd
    simp only [cylinderDiscriminant] at hd
    simp [Shape.intersects, ha, not_le.mpr hd]
  · intro ray id y_min y_max ha hd
    simp only [coneDiscriminant] at hd
    simp [Shape.intersects, ha, not_le.mpr hd]
  · intro ray id y_min y_max h
    simp [Shape.intersects, h]
  · intro ray id y_min y_max h
    simp [Shape.intersects, h]
  · intro r t h
    simp [Shape.cylCheckCap, not_le.mpr h]
  · intro r t y h
    simp [Shape.coneCheckCap, not_le.mpr h]
  · intro w comps depth h
    rw [World.reflectedColor]
    rw [dif_pos (Or.inr h)]
  · intro w comps depth h
    rw [World.refractedColor]
    rw [dif_pos (Or.inr h)]
  · intro w comps depth h1 h2
    simp only [World.shadeHit, resolvedColor]
    rw [if_pos (And.intro h1 h2)]
  · intro w comps depth h
    simp only [World.shadeHit, resolvedColor]
    rw [if_neg h]

/-- C7 amended, witnessed at concrete inputs: a ray parallel to the plane
(direction y within EPSILON of zero) yields no plane hits; the near-tangent
ray's negative discriminant within EPSILON of zero yields no sphere hits; a
unit direction component gives finite cube slab bounds; degenerate lateral
coefficients and cap-parallel directions silence the cylinder and cone;
negative lateral discriminants yield no hits; cap points outside the exact
radius bound are rejected; reflected/refracted colors are black on the
default material (coefficients within EPSILON of 0); and a material whose
coefficients are positive but within EPSILON of zero takes shade_hit's
Schlick branch, while the default material takes the plain-sum branch. -/
theorem c7_amended_witness :
    Shape.intersects Shape.plane (Ray.mk (Tuple.point 0 1 0) (Tuple.vector 1 0 0)) 0 = [] ∧
    Shape.intersects Shape.sphere nearTangentRay 7 = [] ∧
    (∃ a b, Shape.checkAxis 0 1 = (SlabVal.fin a, SlabVal.fin b)) ∧
    Shape.intersects (Shape.cylinder (-1) 1 false)
      (Ray.mk (Tuple.point 0 0 0) (Tuple.vector 0 1 0)) 0 = [] ∧
    Shape.intersects (Shape.cone (-1) 1 false)
      (Ray.mk (Tuple.point 0 0 0) (Tuple.vector 1 1 0)) 0 = [] ∧
    Shape.intersects (Shape.cylinder (-1) 1 false)
      (Ray.mk (Tuple.point 0 0 5) (Tuple.vector 1 0 0)) 0 = [] ∧
    Shape.intersects (Shape.cone (-1) 1 false)
      (Ray.mk (Tuple.point 0 0 5) (Tuple.vector 1 0 0)) 0 = [] ∧
    Shape.intersects (Shape.cylinder (-1) 1 true)
      (Ray.mk (Tuple.point 0 0 5) (Tuple.vector 1 0 0)) 0 =
      Shape.intersects (Shape.cylinder (-1) 1 false)
        (Ray.mk (Tuple.point 0 0 5) (Tuple.vector 1 0 0)) 0 ∧
    Shape.intersects (Shape.cone (-1) 1 true)
      (Ray.mk (Tuple.point 0 0 5) (Tuple.vector 1 0 0)) 0 =
      Shape.intersects (Shape.cone (-1) 1 false)
        (Ray.mk (Tuple.point 0 0 5) (Tuple.vector 1 0 0)) 0 ∧
    Shape.cylCheckCap (Ray.mk (Tuple.point 2 0 0) (Tuple.vector 0 0 1)) 0 = false ∧
    Shape.coneCheckCap (Ray.mk (Tuple.point 2 0 0) (Tuple.vector 0 0 1)) 0 1 = false ∧
    planeWorld.reflectedColor glassComps 5 = Color.black ∧
    planeWorld.refractedColor glassComps 5 = Color.black ∧
    tinyCoefWorld.shadeHit glassComps 0 =
      resolvedColor tinyCoefWorld glassComps *
          phong (tinyCoefWorld.obj_pool.matAt glassComps.object)
            (unblockedLights tinyCoefWorld.obj_pool glassComps.over_point tinyCoefWorld.lights)
            glassComps.normalv glassComps.eyev +
        tinyCoefWorld.reflectedColor glassComps 0 *
          schlick glassComps.eyev glassComps.normalv glassComps.n1 glassComps.n2 +
        tinyCoefWorld.refractedColor glassComps 0 *
          (1 - schlick glassComps.eyev glassComps.normalv glassComps.n1 glassComps.n2) ∧
    planeWorld.shadeHit glassComps 0 =
      resolvedColor planeWorld glassComps *
          phong (planeWorld.obj_pool.matAt glassComps.object)
            (unblockedLights planeWorld.obj_pool glassComps.over_point planeWorld.lights)
            glassComps.normalv glassComps.eyev +
        planeWorld.reflectedColor glassComps 0 + planeWorld.refractedColor glassComps 0 := by
  obtain ⟨h1, h2, h3, h4, h5, h6, h7, h8, h9, h10, h11, h12, h13, h14, h15⟩ := c7_amended
  exact ⟨(h1 _ 0).mpr (by decide),
    (h2 nearTangentRay 7).mpr (by decide),
    (h3 0 1).mpr (by decide),
    h4 _ 0 (-1) 1 (by decide),
    h5 _ 0 (-1) 1 (by decide) (by decide),
    h6 _ 0 (-1) 1 (by decide) (by decide),
    h7 _ 0 (-1) 1 (by decide) (by decide),
    h8 _ 0 (-1) 1 (by decide),
    h9 _ 0 (-1) 1 (by decide),
    h10 _ 0 (by decide),
    h11 _ 0 1 (by decide),
    h12 planeWorld glassComps 5 (by decide),
    h13 planeWorld glassComps 5 (by decide),
    h14 tinyCoefWorld glassComps 0 (by decide) (by decide),
    h15 planeWorld glassComps 0 (by decide)⟩

/-- C9: normal_at fails fatally (modelled `none`) exactly on non-surface
nodes — Group panics, CSG is unimplemented — and on every Shape node it
returns normally with the world-space normal obtained from world_to_object
and normal_to_world. -/
theorem c9_normal_at_dispatch (p : ObjPool) (obj : Obj) (pt : Tuple) :
    (p.normalAt obj pt = none ↔
       p.tagAt obj = ObjTag.group ∨ ∃ op, p.tagAt obj = ObjTag.csg op) ∧
    (∀ s, p.tagAt obj = ObjTag.shape s →
       p.normalAt obj pt =
         some (p.normalToWorld obj (Shape.normalAt s (p.worldToObject obj pt)))) := by
  constructor
  · rcases htag : p.tagAt obj with s | _ | op <;> simp [ObjPool.normalAt, htag]
  · intro s htag
    simp [ObjPool.normalAt, htag]

/-- C9 witnessed on a pool with a Group at handle 0 and a Sphere at handle
1. -/
theorem c9_normal_at_dispatch_witness :
    groupSpherePool.normalAt 0 (Tuple.point 1 2 3) = none ∧
    groupSpherePool.normalAt 1 (Tuple.point 1 2 3) =
      some (groupSpherePool.normalToWorld 1
        (Shape.normalAt Shape.sphere (groupSpherePool.worldToObject 1 (Tuple.point 1 2 3)))) :=
  ⟨(c9_normal_at_dispatch groupSpherePool 0 (Tuple.point 1 2 3)).1.mpr (Or.inl (by decide)),
   (c9_normal_at_dispatch groupSpherePool 1 (Tuple.point 1 2 3)).2 Shape.sphere (by decide)⟩

/-- C6: refracted_color returns black when the depth budget is exhausted or
the transparency is within epsilon of zero; it returns black under total
internal reflection (sin2_t > 1) regardless of the transparency value; and
otherwise it recursively shades a ray from under_point along the Snell
direction with depth-1, scaled by the transparency coefficient. -/
theorem c6_refracted_color (w : World) (comps : Computations) (depth : Nat) :
    ((depth = 0 ∨ close_eq (w.obj_pool.matAt comps.object).transparency 0 = true) →
       w.refractedColor comps depth = Color.black) ∧
    (1 < snellSin2 comps → w.refractedColor comps depth = Color.black) ∧
    (¬ (depth = 0 ∨ close_eq (w.obj_pool.matAt comps.object).transparency 0 = true) →
     ¬ 1 < snellSin2 comps →
       w.refractedColor comps depth =
         w.colorAt (Ray.mk comps.under_point (snellDirection comps)) (depth - 1) *
           (w.obj_pool.matAt comps.object).transparency) := by
  refine ⟨?_, ?_, ?_⟩
  · intro h
    rw [World.refractedColor, dif_pos h]
  · intro h
    rw [World.refractedColor]
    by_cases hz : depth = 0 ∨ close_eq (w.obj_pool.matAt comps.object).transparency 0 = true
    · rw [dif_pos hz]
    · rw [dif_neg hz]
      simp only [snellSin2] at h
      rw [if_pos h]
  · intro hz hs
    rw [World.refractedColor, dif_neg hz]
    simp only [snellSin2] at hs
    rw [if_neg hs]
    simp only [snellDirection, snellSin2]

/-- C6 witnessed on the glass sphere: depth 0 and TIR both give black, and a
head-on hit refracts through colorAt with depth-1 scaled by transparency
1/2. -/
theorem c6_refracted_color_witness :
    glassWorld.refractedColor glassComps 0 = Color.black ∧
    glassWorld.refractedColor tirComps 5 = Color.black ∧
    glassWorld.refractedColor glassComps 1 =
      glassWorld.colorAt (Ray.mk glassComps.under_point (snellDirection glassComps)) 0 *
        (glassWorld.obj_pool.matAt glassComps.object).transparency :=
  ⟨(c6_refracted_color glassWorld glassComps 0).1 (Or.inl rfl),
   (c6_refracted_color glassWorld tirComps 5).2.1 (by decide),
   (c6_refracted_color glassWorld glassComps 1).2.2 (by decide) (by decide)⟩

theorem parityOdd_succ (n : Nat) : parityOdd (n + 1) = !parityOdd n := by
  unfold parityOdd
  rcases Nat.mod_two_eq_zero_or_one n with h | h <;> simp [Nat.add_mod, h]

theorem inLeftAt_cons_succ (fl : Intersection → Bool) (x : Intersection)
    (rest : List Intersection) (i : Nat) :
    inLeftAt fl (x :: rest) (i + 1) = xor (fl x) (inLeftAt fl rest i) := by
  unfold inLeftAt
  rw [List.take_succ_cons, List.countP_cons]
  cases h : fl x <;> simp [h, parityOdd_succ]

theorem inRightAt_cons_succ (fl : Intersection → Bool) (x : Intersection)
    (rest : List Intersection) (i : Nat) :
    inRightAt fl (x :: rest) (i + 1) = xor (!fl x) (inRightAt fl rest i) := by
  unfold inRightAt
  rw [List.take_succ_cons, List.countP_cons]
  cases h : fl x <;> simp [h, parityOdd_succ]

theorem csgScanGo_eq_filter (op : CsgOp) (fl : Intersection → Bool) :
    ∀ (xs : List Intersection) (a b : Bool),
    csgScanGo op fl xs a b =
      ((List.range xs.length).filter fun i =>
          csgRule op (fl (xs.getD i defaultHit)) (xor a (inLeftAt fl xs i))
            (xor b (inRightAt fl xs i))).map (fun i => xs.getD i defaultHit) := by
  intro xs
  induction xs with
  | nil => intro a b; simp [csgScanGo]
  | cons x rest ih =>
    intro a b
    have h0 : inLeftAt fl (x :: rest) 0 = false := by
      simp [inLeftAt, parityOdd]
    have h0r : inRightAt fl (x :: rest) 0 = false := by
      simp [inRightAt, parityOdd]
    rw [List.length_cons, List.range_succ_eq_map, List.filter_cons]
    rw [List.filter_map]
    have hcongr :
        (List.range rest.length).filter
            ((fun i => csgRule op (fl ((x :: rest).getD i defaultHit))
              (xor a (inLeftAt fl (x :: rest) i)) (xor b (inRightAt fl (x :: rest) i))) ∘
              Nat.succ) =
          (List.range rest.length).filter (fun i =>
            csgRule op (fl (rest.getD i defaultHit))
              (xor (xor a (fl x)) (inLeftAt fl rest i))
              (xor (xor b (!fl x)) (inRightAt fl rest i))) := by
      apply List.filter_congr
      intro i _
      simp only [Function.comp, List.getD_cons_succ, inLeftAt_cons_succ, inRightAt_cons_succ,
        ← Bool.xor_assoc]
    simp only [hcongr]
    rw [apply_ite (List.map (fun i => (x :: rest).getD i defaultHit))]
    simp only [List.map_cons, List.map_map]
    cases hfl : fl x with
    | true =>
        simp [csgScanGo, hfl, h0, h0r, ih, Function.comp_def, List.getElem?_cons_succ]
    | false =>
        simp [csgScanGo, hfl, h0, h0r, ih, Function.comp_def, List.getElem?_cons_succ]

/-- C3: the CSG scan keeps exactly the hits selected by the operator's
predicate evaluated at the running (in_left, in_right) state — which, the
toggling being "flip in_left when the hit is from the left operand, else
flip in_right", equals the parity of earlier left (resp. right) hits — and
the CSG arm of intersect_rec is that scan over the merged, t-sorted children
hit lists with fromLeft = includes(hit.obj, left). -/
theorem c3_csg_combine :
    (∀ (op : CsgOp) (fl : Intersection → Bool) (xs : List Intersection),
       csgScan op fl xs =
         ((List.range xs.length).filter fun i =>
             csgRule op (fl (xs.getD i defaultHit)) (inLeftAt fl xs i)
               (inRightAt fl xs i)).map (fun i => xs.getD i defaultHit)) ∧
    (∀ (p : ObjPool) (fuel : Nat) (root l r : Obj) (ray : Ray) (op : CsgOp),
       p.tagAt root = ObjTag.csg op → p.leftAt root = some l → p.rightAt root = some r →
       p.intersectRecF (fuel + 1) root ray =
         csgScan op (fun x => p.includesF (p.size + 1) x.obj l)
           (sortInts (p.intersectRecF fuel l (ray.transform (p.tinvAt root)) ++
             p.intersectRecF fuel r (ray.transform (p.tinvAt root))))) := by
  constructor
  · intro op fl xs
    have h := csgScanGo_eq_filter op fl xs false false
    simpa [csgScan] using h
  · intro p fuel root l r ray op htag hl hr
    rw [ObjPool.intersectRecF, htag, hl, hr]

/-- C3 witnessed: the parity characterization on a two-element list, and the
CSG arm of intersect_rec on the union-of-spheres pool. -/
theorem c3_csg_combine_witness :
    (csgScan CsgOp.union (fun x => decide (x.obj = 0)) tiedHits =
      ((List.range tiedHits.length).filter fun i =>
          csgRule CsgOp.union (decide ((tiedHits.getD i defaultHit).obj = 0))
            (inLeftAt (fun x => decide (x.obj = 0)) tiedHits i)
            (inRightAt (fun x => decide (x.obj = 0)) tiedHits i)).map
        (fun i => tiedHits.getD i defaultHit)) ∧
    csgPool.intersectRecF 4 2 (Ray.mk (Tuple.point 0 0 (-5)) (Tuple.vector 0 0 1)) =
      csgScan CsgOp.union (fun x => csgPool.includesF (csgPool.size + 1) x.obj 0)
        (sortInts
          (csgPool.intersectRecF 3 0
            ((Ray.mk (Tuple.point 0 0 (-5)) (Tuple.vector 0 0 1)).transform (csgPool.tinvAt 2)) ++
           csgPool.intersectRecF 3 1
            ((Ray.mk (Tuple.point 0 0 (-5)) (Tuple.vector 0 0 1)).transform (csgPool.tinvAt 2)))) :=
  ⟨c3_csg_combine.1 CsgOp.union (fun x => decide (x.obj = 0)) tiedHits,
   c3_csg_combine.2 csgPool 3 2 0 1 (Ray.mk (Tuple.point 0 0 (-5)) (Tuple.vector 0 0 1))
     CsgOp.union (by decide) (by decide) (by decide)⟩

/-- C4 counterexample: the containers scan matches the target hit by t
EQUALITY and breaks at the FIRST intersection with that t.  With two
different objects tied at t = 1 (refractive indices 2 and 3) and the hit
being the SECOND of them, the source computes (n1, n2) = (1, 2) — it stops
at the first tied entry and toggles THAT object — while the claim's walk,
which toggles the hit's own object at the hit's position, gives (2, 3). -/
theorem c4_counterexample :
    (prepareComputations ⟨1, 1⟩ zRay twoGlassPool tiedHits).n1 = 1 ∧
    (prepareComputations ⟨1, 1⟩ zRay twoGlassPool tiedHits).n2 = 2 ∧
    n1n2SpecAt twoGlassPool tiedHits 1 = (2, 3) ∧
    ((prepareComputations ⟨1, 1⟩ zRay twoGlassPool tiedHits).n1,
      (prepareComputations ⟨1, 1⟩ zRay twoGlassPool tiedHits).n2) ≠
      n1n2SpecAt twoGlassPool tiedHits 1 := by
  decide

theorem n1n2Scan_eq_spec_aux (p : ObjPool) (xt : ℚ) :
    ∀ (xs : List Intersection) (i : Nat) (cs : List Obj),
    i < xs.length → (xs.getD i defaultHit).t = xt →
    (∀ j, j < i → (xs.getD j defaultHit).t ≠ xt) →
    n1n2Scan p xt xs cs =
      (topRefr p ((xs.take i).foldl (fun acc x => toggleContainer acc x.obj) cs),
       topRefr p (toggleContainer
         ((xs.take i).foldl (fun acc x => toggleContainer acc x.obj) cs)
         (xs.getD i defaultHit).obj)) := by
  intro xs
  induction xs with
  | nil => intro i cs h1 _ _; simp at h1
  | cons x rest ih =>
    intro i cs h1 h2 h3
    cases i with
    | zero =>
        simp only [List.getD_cons_zero] at h2
        simp [n1n2Scan, h2]
    | succ i =>
        have hx : x.t ≠ xt := by
          have := h3 0 (Nat.succ_pos i)
          simpa using this
        simp only [List.getD_cons_succ] at h2 ⊢
        rw [n1n2Scan, if_neg hx]
        rw [List.take_succ_cons, List.foldl_cons]
        exact ih i (toggleContainer cs x.obj) (by simpa using h1) h2
          (fun j hj => by have := h3 (j + 1) (by omega); simpa using this)

/-- C4 amended: the scan identifies the target by t equality, stopping at
the first intersection whose t equals the hit's t and toggling that
intersection's object; whenever the hit is the first element of the list
bearing its t value — in particular whenever the t values are pairwise
distinct — prepare_computations' (n1, n2) are exactly the claim's walk: n1
the refractive index at the stack top before toggling the hit's object (1.0
when empty), n2 the top after the toggle (1.0 when empty). -/
theorem c4_n1n2_first_t_match (p : ObjPool) (ray : Ray) (xs : List Intersection)
    (i : Nat) (h1 : i < xs.length)
    (h2 : ∀ j, j < i → (xs.getD j defaultHit).t ≠ (xs.getD i defaultHit).t) :
    (prepareComputations (xs.getD i defaultHit) ray p xs).n1 = (n1n2SpecAt p xs i).1 ∧
    (prepareComputations (xs.getD i defaultHit) ray p xs).n2 = (n1n2SpecAt p xs i).2 := by
  have haux := n1n2Scan_eq_spec_aux p (xs.getD i defaultHit).t xs i [] h1 rfl h2
  constructor
  · simp only [prepareComputations, haux, n1n2SpecAt, containersAt]
  · simp only [prepareComputations, haux, n1n2SpecAt, containersAt]

/-- C4 amended, witnessed on a distinct-t list over the two glass
spheres. -/
theorem c4_n1n2_first_t_match_witness :
    (prepareComputations (distinctHits.getD 1 defaultHit) zRay twoGlassPool distinctHits).n1 =
      (n1n2SpecAt twoGlassPool distinctHits 1).1 ∧
    (prepareComputations (distinctHits.getD 1 defaultHit) zRay twoGlassPool distinctHits).n2 =
      (n1n2SpecAt twoGlassPool distinctHits 1).2 :=
  c4_n1n2_first_t_match twoGlassPool zRay distinctHits 1 (by decide)
    (fun j hj => by interval_cases j <;> decide)

theorem find_pos_min :
    ∀ {xs : List Intersection}, List.Pairwise tLe xs →
    ∀ {x : Intersection}, List.find? (fun y => decide (0 < y.t)) xs = some x →
    0 < x.t ∧ ∀ y ∈ xs, 0 < y.t → x.t ≤ y.t := by
  intro xs
  induction xs with
  | nil => intro _ x hf; simp at hf
  | cons z rest ih =>
    intro hp x hf
    rcases List.pairwise_cons.mp hp with ⟨hz, hrest⟩
    by_cases hzt : 0 < z.t
    · rw [List.find?_cons_of_pos _ (by simpa using hzt)] at hf
      injection hf with hf
      subst hf
      refine ⟨hzt, ?_⟩
      intro y hy _
      rcases List.mem_cons.mp hy with rfl | hy
      · exact le_refl _
      · exact hz y hy
    · rw [List.find?_cons_of_neg _ (by simpa using hzt)] at hf
      rcases ih hrest hf with ⟨hx, hmin⟩
      refine ⟨hx, ?_⟩
      intro y hy hyt
      rcases List.mem_cons.mp hy with rfl | hy
      · exact absurd hyt hzt
      · exact hmin y hy hyt

/-- C5: intersect returns the concatenated per-root results sorted ascending
by t; color_at selects the first intersection with t > 0 — which, the list
being sorted, is the one with smallest positive t (t ≤ 0 excluded) — and
shades it, returning black when no intersection has positive t. -/
theorem c5_color_at_nearest_forward_hit (w : World) (ray : Ray) (depth : Nat) :
    List.Pairwise tLe (w.obj_pool.intersect ray) ∧
    ((∀ x ∈ w.obj_pool.intersect ray, ¬ 0 < x.t) → w.colorAt ray depth = Color.black) ∧
    (∀ x, List.find? (fun y => decide (0 < y.t)) (w.obj_pool.intersect ray) = some x →
       0 < x.t ∧ (∀ y ∈ w.obj_pool.intersect ray, 0 < y.t → x.t ≤ y.t) ∧
       w.colorAt ray depth =
         w.shadeHit (prepareComputations x ray w.obj_pool (w.obj_pool.intersect ray)) depth) := by
  have hsorted : List.Pairwise tLe (w.obj_pool.intersect ray) :=
    List.sorted_insertionSort tLe _
  refine ⟨hsorted, ?_, ?_⟩
  · intro h
    have hnone : List.find? (fun y => decide (0 < y.t)) (w.obj_pool.intersect ray) = none :=
      List.find?_eq_none.mpr (fun y hy => by simpa using h y hy)
    rw [World.colorAt, hnone]
  · intro x hf
    rcases find_pos_min hsorted hf with ⟨hx, hmin⟩
    refine ⟨hx, hmin, ?_⟩
    rw [World.colorAt, hf]

/-- C5 witnessed on the one-plane world: a backward-only hit list gives
black, and a forward hit is shaded as the nearest forward hit. -/
theorem c5_color_at_nearest_forward_hit_witness :
    (planeWorld.colorAt (Ray.mk (Tuple.point 0 (-2) 0) (Tuple.vector 0 (-1) 0)) 5 = Color.black) ∧
    (0 < (2 : ℚ) ∧
     (∀ y ∈ planeWorld.obj_pool.intersect (Ray.mk (Tuple.point 0 (-2) 0) (Tuple.vector 0 1 0)),
        0 < y.t → (2 : ℚ) ≤ y.t) ∧
     planeWorld.colorAt (Ray.mk (Tuple.point 0 (-2) 0) (Tuple.vector 0 1 0)) 5 =
       planeWorld.shadeHit
         (prepareComputations ⟨2, 0⟩ (Ray.mk (Tuple.point 0 (-2) 0) (Tuple.vector 0 1 0))
           planeWorld.obj_pool
           (planeWorld.obj_pool.intersect (Ray.mk (Tuple.point 0 (-2) 0) (Tuple.vector 0 1 0)))) 5) :=
  ⟨(c5_color_at_nearest_forward_hit planeWorld
      (Ray.mk (Tuple.point 0 (-2) 0) (Tuple.vector 0 (-1) 0)) 5).2.1 (by decide),
   (c5_color_at_nearest_forward_hit planeWorld
      (Ray.mk (Tuple.point 0 (-2) 0) (Tuple.vector 0 1 0)) 5).2.2 ⟨2, 0⟩ (by decide)⟩

theorem shadeHitGas_of_parts (w : World) (depth : Nat)
    (hrefl : ∀ gas comps, 3 * depth + 1 ≤ gas →
       w.reflectedColorGas gas comps depth = some (w.reflectedColor comps depth))
    (hrefr : ∀ gas comps, 3 * depth + 1 ≤ gas →
       w.refractedColorGas gas comps depth = some (w.refractedColor comps depth)) :
    ∀ gas comps, 3 * depth + 2 ≤ gas →
      w.shadeHitGas gas comps depth = some (w.shadeHit comps depth) := by
  intro gas comps hg
  obtain ⟨g, rfl⟩ : ∃ g, gas = g + 1 := ⟨gas - 1, by omega⟩
  rw [World.shadeHitGas, hrefl g comps (by omega), hrefr g comps (by omega), World.shadeHit]
  by_cases hc : 0 < (w.obj_pool.matAt comps.object).reflective ∧
      0 < (w.obj_pool.matAt comps.object).transparency
  · simp [hc]
  · simp [hc]

theorem colorAtGas_of_parts (w : World) (depth : Nat)
    (hsh : ∀ gas comps, 3 * depth + 2 ≤ gas →
       w.shadeHitGas gas comps depth = some (w.shadeHit comps depth)) :
    ∀ gas ray, 3 * depth + 3 ≤ gas →
      w.colorAtGas gas ray depth = some (w.colorAt ray depth) := by
  intro gas ray hg
  obtain ⟨g, rfl⟩ : ∃ g, gas = g + 1 := ⟨gas - 1, by omega⟩
  rw [World.colorAtGas, World.colorAt]
  cases hf : List.find? (fun x => decide (0 < x.t)) (w.obj_pool.intersect ray) with
  | none => simp [hf]
  | some x => simp [hf, hsh g _ (by omega)]

theorem gasAll (w : World) : ∀ depth : Nat,
    (∀ gas comps, 3 * depth + 1 ≤ gas →
       w.reflectedColorGas gas comps depth = some (w.reflectedColor comps depth)) ∧
    (∀ gas comps, 3 * depth + 1 ≤ gas →
       w.refractedColorGas gas comps depth = some (w.refractedColor comps depth)) := by
  intro depth
  induction depth with
  | zero =>
    constructor
    · intro gas comps hg
      obtain ⟨g, rfl⟩ : ∃ g, gas = g + 1 := ⟨gas - 1, by omega⟩
      rw [World.reflectedColorGas, World.reflectedColor]
      simp
    · intro gas comps hg
      obtain ⟨g, rfl⟩ : ∃ g, gas = g + 1 := ⟨gas - 1, by omega⟩
      rw [World.refractedColorGas, World.refractedColor]
      simp
  | succ depth ih =>
    have hsh := shadeHitGas_of_parts w depth ih.1 ih.2
    have hcol := colorAtGas_of_parts w depth hsh
    constructor
    · intro gas comps hg
      obtain ⟨g, rfl⟩ : ∃ g, gas = g + 1 := ⟨gas - 1, by omega⟩
      rw [World.reflectedColorGas, World.reflectedColor]
      by_cases hc : close_eq (w.obj_pool.matAt comps.object).reflective 0 = true
      · simp [hc]
      · have hcond : ¬ (depth + 1 = 0 ∨
            close_eq (w.obj_pool.matAt comps.object).reflective 0 = true) := by
          simp [hc]
        rw [if_neg hcond, dif_neg hcond]
        simp [hcol g _ (by omega)]
    · intro gas comps hg
      obtain ⟨g, rfl⟩ : ∃ g, gas = g + 1 := ⟨gas - 1, by omega⟩
      rw [World.refractedColorGas, World.refractedColor]
      by_cases hc : close_eq (w.obj_pool.matAt comps.object).transparency 0 = true
      · simp [hc]
      · have hcond : ¬ (depth + 1 = 0 ∨
            close_eq (w.obj_pool.matAt comps.object).transparency 0 = true) := by
          simp [hc]
        rw [if_neg hcond, dif_neg hcond]
        by_cases hs : 1 < snellSin2 comps
        · simp only [snellSin2] at hs
          rw [if_pos hs, if_pos hs]
        · simp only [snellSin2] at hs
          rw [if_neg hs, if_neg hs]
          simp [hcol g _ (by omega)]

/-- C8: the mutual recursion color_at / shade_hit / reflected_color /
refracted_color terminates within an explicit call-stack budget: whenever
the gas budget is at least 3*depth + 3 (one unit per nested call, three
calls per bounce level), the gas-instrumented pipeline completes and agrees
with the total function — each bounce strictly decrements depth and both
reflected_color and refracted_color return immediately at depth 0, so the
nesting is bounded for every scene, ray and budget. -/
theorem c8_color_at_terminates (w : World) (ray : Ray) (depth gas : Nat)
    (h : 3 * depth + 3 ≤ gas) :
    w.colorAtGas gas ray depth = some (w.colorAt ray depth) :=
  colorAtGas_of_parts w depth
    (shadeHitGas_of_parts w depth (gasAll w depth).1 (gasAll w depth).2) gas ray h

/-- C8 witnessed: two parallel mirror planes facing each other, depth budget
5, gas 18 = 3*5+3 suffices. -/
theorem c8_color_at_terminates_witness :
    mirrorWorld.colorAtGas 18 zRay 5 = some (mirrorWorld.colorAt zRay 5) :=
  c8_color_at_terminates mirrorWorld zRay 5 18 (by omega)

theorem getD_set_eq {α : Type} (l : List α) (i j : Nat) (v d : α) :
    (l.set i v).getD j d = if i = j ∧ i < l.length then v else l.getD j d := by
  rw [List.getD_eq_getElem?_getD, List.getElem?_set]
  by_cases h1 : i = j
  · subst h1
    by_cases h2 : i < l.length
    · simp [h2]
    · simp [h2, List.getD_eq_getElem?_getD,
        List.getElem?_eq_none (Nat.le_of_not_lt h2)]
  · simp [h1, List.getD_eq_getElem?_getD]

theorem getD_append_len {α : Type} (l : List α) (a d : α) :
    (l ++ [a]).getD l.length d = a := by
  rw [List.getD_eq_getElem?_getD, List.getElem?_concat_length]
  rfl

theorem getD_mem_of_lt {α : Type} (l : List α) (i : Nat) (d : α) (h : i < l.length) :
    l.getD i d ∈ l := by
  rw [List.getD_eq_getElem?_getD, List.getElem?_eq_getElem h]
  exact List.getElem_mem h

theorem get?_eq_some_getD {α : Type} (l : List α) (i : Nat) (d : α) (h : i < l.length) :
    l[i]? = some (l.getD i d) := by
  rw [List.getD_eq_getElem?_getD, List.getElem?_eq_getElem h]
  rfl

theorem all_handleOk_mono {n m : Nat} (h : n ≤ m) {l : List (Option Obj)}
    (hl : l.all (handleOk n) = true) : l.all (handleOk m) = true := by
  rw [List.all_eq_true] at hl ⊢
  intro o ho
  rcases o with _ | v
  · rfl
  · have hv := hl (some v) ho
    have hv2 : v < n := by simpa [handleOk] using hv
    simpa [handleOk] using lt_of_lt_of_le hv2 h

theorem all_set_of_all {α : Type} {l : List α} {f : α → Bool} {i : Nat} {v : α}
    (hl : l.all f = true) (hv : f v = true) : (l.set i v).all f = true := by
  rw [List.all_eq_true] at hl ⊢
  intro a ha
  rcases List.mem_or_eq_of_mem_set ha with ha | rfl
  · exact hl a ha
  · exact hv

theorem wfB_parts (p : ObjPool) (h : p.wfB = true) :
    p.transform_inverse.length = p.size ∧ p.material.length = p.size ∧
    p.parent.length = p.size ∧ p.left.length = p.size ∧ p.right.length = p.size ∧
    p.parent.all (handleOk p.size) = true ∧ p.left.all (handleOk p.size) = true ∧
    p.right.all (handleOk p.size) = true ∧
    (List.range p.size).all (fun i =>
      match p.tagAt i with
      | ObjTag.csg _ => (p.leftAt i).isSome && (p.rightAt i).isSome
      | _ => true) = true := by
  unfold ObjPool.wfB at h
  simp only [Bool.and_eq_true, decide_eq_true_eq] at h
  exact ⟨h.1.1.1.1.1.1.1.1, h.1.1.1.1.1.1.1.2, h.1.1.1.1.1.1.2, h.1.1.1.1.1.2,
    h.1.1.1.1.2, h.1.1.1.2, h.1.1.2, h.1.2, h.2⟩

theorem all_getD_lt {l : List (Option Obj)} {n : Nat} (hall : l.all (handleOk n) = true)
    {i v : Nat} (hv : l.getD i none = some v) : v < n := by
  by_cases hi : i < l.length
  · have hmem := getD_mem_of_lt l i none hi
    rw [hv] at hmem
    have := List.all_eq_true.mp hall (some v) hmem
    simpa [handleOk] using this
  · rw [List.getD_eq_getElem?_getD, List.getElem?_eq_none (Nat.le_of_not_lt hi)] at hv
    cases hv

theorem wf_leftAt_lt (p : ObjPool) (h : p.wfB = true) {i v : Nat}
    (hv : p.leftAt i = some v) : v < p.size :=
  all_getD_lt (wfB_parts p h).2.2.2.2.2.2.1 hv

theorem wf_rightAt_lt (p : ObjPool) (h : p.wfB = true) {i v : Nat}
    (hv : p.rightAt i = some v) : v < p.size :=
  all_getD_lt (wfB_parts p h).2.2.2.2.2.2.2.1 hv

theorem wf_parentAt_lt (p : ObjPool) (h : p.wfB = true) {i v : Nat}
    (hv : p.parentAt i = some v) : v < p.size :=
  all_getD_lt (wfB_parts p h).2.2.2.2.2.1 hv

theorem wf_csg_children (p : ObjPool) (h : p.wfB = true) {i : Nat} (hi : i < p.size)
    {op : CsgOp} (htag : p.tagAt i = ObjTag.csg op) :
    ∃ l r, p.leftAt i = some l ∧ p.rightAt i = some r ∧ l < p.size ∧ r < p.size := by
  have hrange := List.all_eq_true.mp (wfB_parts p h).2.2.2.2.2.2.2.2 i (List.mem_range.mpr hi)
  simp only [htag] at hrange
  rw [Bool.and_eq_true] at hrange
  rcases hrange with ⟨hl, hr⟩
  rcases Option.isSome_iff_exists.mp hl with ⟨l, hl2⟩
  rcases Option.isSome_iff_exists.mp hr with ⟨r, hr2⟩
  exact ⟨l, r, hl2, hr2, wf_leftAt_lt p h hl2, wf_rightAt_lt p h hr2⟩

theorem tag_get?_of_lt (p : ObjPool) {i : Nat} (hi : i < p.size) :
    p.tag[i]? = some (p.tagAt i) :=
  get?_eq_some_getD p.tag i ObjTag.group hi

theorem tinv_get?_of_lt (p : ObjPool) (h : p.wfB = true) {i : Nat} (hi : i < p.size) :
    p.transform_inverse[i]? = some (p.tinvAt i) :=
  get?_eq_some_getD p.transform_inverse i Mat4.identity (by rw [(wfB_parts p h).1]; exact hi)

theorem left_get?_of_lt (p : ObjPool) (h : p.wfB = true) {i : Nat} (hi : i < p.size) :
    p.left[i]? = some (p.leftAt i) :=
  get?_eq_some_getD p.left i none (by rw [(wfB_parts p h).2.2.2.1]; exact hi)

theorem right_get?_of_lt (p : ObjPool) (h : p.wfB = true) {i : Nat} (hi : i < p.size) :
    p.right[i]? = some (p.rightAt i) :=
  get?_eq_some_getD p.right i none (by rw [(wfB_parts p h).2.2.2.2.1]; exact hi)

theorem parent_get?_of_lt (p : ObjPool) (h : p.wfB = true) {i : Nat} (hi : i < p.size) :
    p.parent[i]? = some (p.parentAt i) :=
  get?_eq_some_getD p.parent i none (by rw [(wfB_parts p h).2.2.1]; exact hi)

theorem push_size (p : ObjPool) (tag : ObjTag) (tinv : Mat4) (m : Material) :
    (p.push tag tinv m).size = p.size + 1 := by
  simp [ObjPool.push, ObjPool.size]

theorem wf_push (p : ObjPool) (h : p.wfB = true) (tag : ObjTag) (tinv : Mat4)
    (m : Material) (htag : ∀ op, tag ≠ ObjTag.csg op) :
    (p.push tag tinv m).wfB = true := by
  have parts := wfB_parts p h
  unfold ObjPool.wfB
  simp only [Bool.and_eq_true, decide_eq_true_eq]
  have hsz : (p.push tag tinv m).size = p.size + 1 := push_size p tag tinv m
  refine ⟨⟨⟨⟨⟨⟨⟨⟨?_, ?_⟩, ?_⟩, ?_⟩, ?_⟩, ?_⟩, ?_⟩, ?_⟩, ?_⟩
  · simpa [ObjPool.push, ObjPool.size] using parts.1
  · simpa [ObjPool.push, ObjPool.size] using parts.2.1
  · simpa [ObjPool.push, ObjPool.size] using parts.2.2.1
  · simpa [ObjPool.push, ObjPool.size] using parts.2.2.2.1
  · simpa [ObjPool.push, ObjPool.size] using parts.2.2.2.2.1
  · rw [hsz]
    simp only [ObjPool.push, List.all_append, Bool.and_eq_true]
    exact ⟨all_handleOk_mono (Nat.le_succ _) (parts).2.2.2.2.2.1, by simp [handleOk]⟩
  · rw [hsz]
    simp only [ObjPool.push, List.all_append, Bool.and_eq_true]
    exact ⟨all_handleOk_mono (Nat.le_succ _) (parts).2.2.2.2.2.2.1, by simp [handleOk]⟩
  · rw [hsz]
    simp only [ObjPool.push, List.all_append, Bool.and_eq_true]
    exact ⟨all_handleOk_mono (Nat.le_succ _) (parts).2.2.2.2.2.2.2.1, by simp [handleOk]⟩
  · rw [hsz, List.all_eq_true]
    intro i hi
    have hi2 : i < p.size + 1 := List.mem_range.mp hi
    by_cases hlt : i < p.size
    · have htg : (p.push tag tinv m).tagAt i = p.tagAt i := by
        simp only [ObjPool.push, ObjPool.tagAt]
        exact List.getD_append _ _ _ _ hlt
      have hlf : (p.push tag tinv m).leftAt i = p.leftAt i := by
        simp only [ObjPool.push, ObjPool.leftAt]
        exact List.getD_append _ _ _ _ (by rw [parts.2.2.2.1]; exact hlt)
      have hrg : (p.push tag tinv m).rightAt i = p.rightAt i := by
        simp only [ObjPool.push, ObjPool.rightAt]
        exact List.getD_append _ _ _ _ (by rw [parts.2.2.2.2.1]; exact hlt)
      have hold := List.all_eq_true.mp parts.2.2.2.2.2.2.2.2 i (List.mem_range.mpr hlt)
      rw [htg, hlf, hrg]
      exact hold
    · have hieq : i = p.size := by omega
      subst hieq
      have htg : (p.push tag tinv m).tagAt p.size = tag := by
        simp only [ObjPool.push, ObjPool.tagAt, ObjPool.size]
        exact getD_append_len _ _ _
      rw [htg]
      rcases tag with s | _ | op
      · rfl
      · rfl
      · exact absurd rfl (htag op)

theorem wf_set_left (p : ObjPool) (h : p.wfB = true) (i : Nat) {v : Nat}
    (hv : v < p.size) : ({ p with left := p.left.set i (some v) } : ObjPool).wfB = true := by
  have parts := wfB_parts p h
  unfold ObjPool.wfB
  simp only [Bool.and_eq_true, decide_eq_true_eq]
  refine ⟨⟨⟨⟨⟨⟨⟨⟨?_, ?_⟩, ?_⟩, ?_⟩, ?_⟩, ?_⟩, ?_⟩, ?_⟩, ?_⟩
  · exact parts.1
  · exact parts.2.1
  · exact parts.2.2.1
  · simpa [List.length_set] using parts.2.2.2.1
  · exact parts.2.2.2.2.1
  · exact parts.2.2.2.2.2.1
  · exact all_set_of_all parts.2.2.2.2.2.2.1 (by simpa [handleOk] using hv)
  · exact parts.2.2.2.2.2.2.2.1
  · rw [List.all_eq_true]
    intro j hj
    have hold := List.all_eq_true.mp parts.2.2.2.2.2.2.2.2 j hj
    rcases htag : p.tagAt j with s | _ | op
    · simp only [ObjPool.tagAt] at htag ⊢
      rw [htag]
    · simp only [ObjPool.tagAt] at htag ⊢
      rw [htag]
    · simp only [ObjPool.tagAt] at htag ⊢
      rw [htag]
      rw [show p.tagAt j = ObjTag.csg op from htag] at hold
      rw [Bool.and_eq_true] at hold
      rw [Bool.and_eq_true]
      refine ⟨?_, hold.2⟩
      show ((p.left.set i (some v)).getD j none).isSome = true
      rw [getD_set_eq]
      by_cases hc : i = j ∧ i < p.left.length
      · rw [if_pos hc]; rfl
      · rw [if_neg hc]; exact hold.1

theorem wf_set_right (p : ObjPool) (h : p.wfB = true) (i : Nat) {v : Nat}
    (hv : v < p.size) : ({ p with right := p.right.set i (some v) } : ObjPool).wfB = true := by
  have parts := wfB_parts p h
  unfold ObjPool.wfB
  simp only [Bool.and_eq_true, decide_eq_true_eq]
  refine ⟨⟨⟨⟨⟨⟨⟨⟨?_, ?_⟩, ?_⟩, ?_⟩, ?_⟩, ?_⟩, ?_⟩, ?_⟩, ?_⟩
  · exact parts.1
  · exact parts.2.1
  · exact parts.2.2.1
  · exact parts.2.2.2.1
  · simpa [List.length_set] using parts.2.2.2.2.1
  · exact parts.2.2.2.2.2.1
  · exact parts.2.2.2.2.2.2.1
  · exact all_set_of_all parts.2.2.2.2.2.2.2.1 (by simpa [handleOk] using hv)
  · rw [List.all_eq_true]
    intro j hj
    have hold := List.all_eq_true.mp parts.2.2.2.2.2.2.2.2 j hj
    rcases htag : p.tagAt j with s | _ | op
    · simp only [ObjPool.tagAt] at htag ⊢
      rw [htag]
    · simp only [ObjPool.tagAt] at htag ⊢
      rw [htag]
    · simp only [ObjPool.tagAt] at htag ⊢
      rw [htag]
      rw [show p.tagAt j = ObjTag.csg op from htag] at hold
      rw [Bool.and_eq_true] at hold
      rw [Bool.and_eq_true]
      refine ⟨hold.1, ?_⟩
      show ((p.right.set i (some v)).getD j none).isSome = true
      rw [getD_set_eq]
      by_cases hc : i = j ∧ i < p.right.length
      · rw [if_pos hc]; rfl
      · rw [if_neg hc]; exact hold.2

theorem wf_set_parent (p : ObjPool) (h : p.wfB = true) (i : Nat) {v : Nat}
    (hv : v < p.size) : ({ p with parent := p.parent.set i (some v) } : ObjPool).wfB = true := by
  have parts := wfB_parts p h
  unfold ObjPool.wfB
  simp only [Bool.and_eq_true, decide_eq_true_eq]
  refine ⟨⟨⟨⟨⟨⟨⟨⟨?_, ?_⟩, ?_⟩, ?_⟩, ?_⟩, ?_⟩, ?_⟩, ?_⟩, ?_⟩
  · exact parts.1
  · exact parts.2.1
  · simpa [List.length_set] using parts.2.2.1
  · exact parts.2.2.2.1
  · exact parts.2.2.2.2.1
  · exact all_set_of_all parts.2.2.2.2.2.1 (by simpa [handleOk] using hv)
  · exact parts.2.2.2.2.2.2.1
  · exact parts.2.2.2.2.2.2.2.1
  · exact parts.2.2.2.2.2.2.2.2

theorem wf_addChild (p : ObjPool) (h : p.wfB = true) {parent child : Nat}
    (hp : parent < p.size) (hc : child < p.size) :
    (p.addChild parent child).wfB = true := by
  have h1 : ({ p with parent := p.parent.set child (some parent) } : ObjPool).wfB = true :=
    wf_set_parent p h child hp
  unfold ObjPool.addChild
  dsimp only
  split
  · exact wf_set_right _ h1 _ hc
  · exact wf_set_left _ h1 _ hc

theorem wf_addCsg (p : ObjPool) (h : p.wfB = true) (op : CsgOp) (tinv : Mat4)
    {l r : Nat} (hl : l < p.size) (hr : r < p.size) :
    (p.addCsg op tinv l r).wfB = true := by
  have parts := wfB_parts p h
  have hokS : handleOk (p.size + 1) (some p.size) = true := by
    unfold handleOk
    rw [decide_eq_true_eq]
    exact Nat.lt_succ_self _
  have hokL : handleOk (p.size + 1) (some l) = true := by
    unfold handleOk
    rw [decide_eq_true_eq]
    exact Nat.lt_succ_of_lt hl
  have hokR : handleOk (p.size + 1) (some r) = true := by
    unfold handleOk
    rw [decide_eq_true_eq]
    exact Nat.lt_succ_of_lt hr
  unfold ObjPool.addCsg ObjPool.push
  unfold ObjPool.wfB
  simp only [Bool.and_eq_true, decide_eq_true_eq]
  refine ⟨⟨⟨⟨⟨⟨⟨⟨?_, ?_⟩, ?_⟩, ?_⟩, ?_⟩, ?_⟩, ?_⟩, ?_⟩, ?_⟩
  · simpa [ObjPool.size] using parts.1
  · simpa [ObjPool.size] using parts.2.1
  · simpa [ObjPool.size, List.length_set] using parts.2.2.1
  · simpa [ObjPool.size, List.length_set] using parts.2.2.2.1
  · simpa [ObjPool.size, List.length_set] using parts.2.2.2.2.1
  · have hbase : (p.parent ++ [none]).all (handleOk (p.size + 1)) = true := by
      rw [List.all_append, Bool.and_eq_true]
      exact ⟨all_handleOk_mono (Nat.le_succ _) parts.2.2.2.2.2.1, by simp [handleOk]⟩
    have h2 : (((p.parent ++ [none]).set l (some p.size)).set r (some p.size)).all
        (handleOk (p.size + 1)) = true :=
      all_set_of_all (all_set_of_all hbase hokS) hokS
    simpa [ObjPool.size, List.length_append] using h2
  · have hbase : (p.left ++ [none]).all (handleOk (p.size + 1)) = true := by
      rw [List.all_append, Bool.and_eq_true]
      exact ⟨all_handleOk_mono (Nat.le_succ _) parts.2.2.2.2.2.2.1, by simp [handleOk]⟩
    have h2 : ((p.left ++ [none]).set p.size (some l)).all (handleOk (p.size + 1)) = true :=
      all_set_of_all hbase hokL
    simpa [ObjPool.size, List.length_append] using h2
  · have hbase : (p.right ++ [none]).all (handleOk (p.size + 1)) = true := by
      rw [List.all_append, Bool.and_eq_true]
      exact ⟨all_handleOk_mono (Nat.le_succ _) parts.2.2.2.2.2.2.2.1, by simp [handleOk]⟩
    have h2 : ((p.right ++ [none]).set p.size (some r)).all (handleOk (p.size + 1)) = true :=
      all_set_of_all hbase hokR
    simpa [ObjPool.size, List.length_append] using h2
  · rw [List.all_eq_true]
    intro j hj
    have hj2 : j < p.size + 1 := by
      simpa [ObjPool.size, List.length_append] using List.mem_range.mp hj
    by_cases hlt : j < p.size
    · have htg : (p.tag ++ [ObjTag.csg op]).getD j ObjTag.group = p.tagAt j := by
        simp only [ObjPool.tagAt]
        exact List.getD_append _ _ _ _ hlt
      have hlf : ((p.left ++ [none]).set p.size (some l)).getD j none = p.leftAt j := by
        rw [getD_set_eq, if_neg (by omega)]
        simp only [ObjPool.leftAt]
        exact List.getD_append _ _ _ _ (by rw [parts.2.2.2.1]; exact hlt)
      have hrg : ((p.right ++ [none]).set p.size (some r)).getD j none = p.rightAt j := by
        rw [getD_set_eq, if_neg (by omega)]
        simp only [ObjPool.rightAt]
        exact List.getD_append _ _ _ _ (by rw [parts.2.2.2.2.1]; exact hlt)
      have hold := List.all_eq_true.mp parts.2.2.2.2.2.2.2.2 j (List.mem_range.mpr hlt)
      simp only [ObjPool.tagAt, ObjPool.leftAt, ObjPool.rightAt] at hold ⊢
      rw [htg, hlf, hrg]
      exact hold
    · have hieq : j = p.size := by omega
      subst hieq
      have htg : (p.tag ++ [ObjTag.csg op]).getD p.size ObjTag.group = ObjTag.csg op := by
        have := getD_append_len p.tag (ObjTag.csg op) ObjTag.group
        simpa [ObjPool.size] using this
      have hlf : ((p.left ++ [none]).set p.size (some l)).getD p.size none = some l := by
        rw [getD_set_eq,
          if_pos ⟨rfl, by rw [List.length_append, parts.2.2.2.1]; simp⟩]
      have hrg : ((p.right ++ [none]).set p.size (some r)).getD p.size none = some r := by
        rw [getD_set_eq,
          if_pos ⟨rfl, by rw [List.length_append, parts.2.2.2.2.1]; simp⟩]
      simp only [ObjPool.tagAt, ObjPool.leftAt, ObjPool.rightAt]
      rw [htg, hlf, hrg]
      rfl

theorem wf_applyOp (p : ObjPool) (h : p.wfB = true) (op : BuildOp)
    (hv : opValidB p op = true) : (p.applyOp op).wfB = true := by
  rcases op with ⟨s, tinv, m⟩ | tinv | ⟨parent, child⟩ | ⟨o, tinv, l, r⟩
  · exact wf_push p h _ _ _ (fun _ => by simp)
  · exact wf_push p h _ _ _ (fun _ => by simp)
  · simp only [opValidB, Bool.and_eq_true, decide_eq_true_eq] at hv
    exact wf_addChild p h hv.1 hv.2
  · simp only [opValidB, Bool.and_eq_true, decide_eq_true_eq] at hv
    exact wf_addCsg p h o tinv hv.1 hv.2

theorem wf_new : ObjPool.new.wfB = true := by decide

theorem wf_build_fold :
    ∀ (ops : List BuildOp) (p : ObjPool), p.wfB = true → opsValidB p ops = true →
    (ops.foldl ObjPool.applyOp p).wfB = true := by
  intro ops
  induction ops with
  | nil => intro p hp _; exact hp
  | cons op rest ih =>
    intro p hp hv
    simp only [opsValidB, Bool.and_eq_true] at hv
    exact ih (p.applyOp op) (wf_applyOp p hp op hv.1) hv.2

theorem mem_ite_singleton {c : Prop} [Decidable c] {x e : Intersection}
    (h : x ∈ (if c then [e] else [])) : x = e := by
  split_ifs at h
  · simpa using h
  · simp at h

set_option maxHeartbeats 1000000 in
theorem shape_intersects_obj (s : Shape) (ray : Ray) (id : Obj) :
    ∀ x ∈ s.intersects ray id, x.obj = id := by
  intro x hx
  rcases s with _ | _ | _ | ⟨ymin, ymax, closed⟩ | ⟨ymin, ymax, closed⟩ <;>
    simp only [Shape.intersects, List.mem_append] at hx <;>
    split_ifs at hx <;>
      (try simp only [List.mem_append, List.mem_cons, List.not_mem_nil,
        or_false, false_or] at hx) <;>
      first
        | exact hx.elim
        | (subst hx; rfl)
        | (rcases hx with rfl | rfl <;> rfl)
        | (rcases hx with hx1 | hx1 <;>
            first
              | exact hx1.elim
              | (subst hx1; rfl)
              | (rcases hx1 with rfl | rfl <;> rfl))

theorem csgScanGo_subset (op : CsgOp) (fl : Intersection → Bool) :
    ∀ (xs : List Intersection) (a b : Bool) (x : Intersection),
    x ∈ csgScanGo op fl xs a b → x ∈ xs := by
  intro xs
  induction xs with
  | nil => intro a b x hx; simp [csgScanGo] at hx
  | cons y rest ih =>
    intro a b x hx
    simp only [csgScanGo] at hx
    split_ifs at hx <;>
      first
        | exact List.mem_cons_of_mem _ (ih _ _ _ hx)
        | (rcases List.mem_cons.mp hx with rfl | hx
           exacts [List.mem_cons_self _ _, List.mem_cons_of_mem _ (ih _ _ _ hx)])

theorem csgScanGoC_eq (op : CsgOp) (flC : Intersection → Option Bool)
    (fl : Intersection → Bool) :
    ∀ (xs : List Intersection) (a b : Bool), (∀ x ∈ xs, flC x = some (fl x)) →
    csgScanGoC op flC xs a b = some (csgScanGo op fl xs a b) := by
  intro xs
  induction xs with
  | nil => intro a b _; rfl
  | cons y rest ih =>
    intro a b hall
    have hy : flC y = some (fl y) := hall y (List.mem_cons_self _ _)
    have hrest : ∀ x ∈ rest, flC x = some (fl x) :=
      fun x hx => hall x (List.mem_cons_of_mem _ hx)
    simp only [csgScanGoC, csgScanGo, hy, Option.bind_some]
    cases hfl : fl y
    · rw [ih a (!b) hrest]
      simp
    · rw [ih (!a) b hrest]
      simp

theorem mem_sortInts {x : Intersection} {xs : List Intersection} :
    x ∈ sortInts xs ↔ x ∈ xs :=
  (List.perm_insertionSort tLe xs).mem_iff

theorem includes_agree (p : ObjPool) (h : p.wfB = true) :
    ∀ fuel : Nat,
    (∀ target node, node < p.size →
       p.includesFC fuel target node = some (p.includesF fuel target node)) ∧
    (∀ target co, handleOk p.size co = true →
       p.includesChildrenFC fuel target co = some (p.includesChildrenF fuel target co)) := by
  intro fuel
  induction fuel with
  | zero =>
    constructor
    · intro t n _
      rfl
    · intro t co _
      cases co <;> rfl
  | succ fuel ih =>
    constructor
    · intro t n hn
      rw [ObjPool.includesFC, ObjPool.includesF]
      by_cases ht : t = n
      · rw [if_pos ht, if_pos ht]
      · rw [if_neg ht, if_neg ht, tag_get?_of_lt p hn]
        rcases htag : p.tagAt n with s | _ | op
        · rfl
        · rw [left_get?_of_lt p h hn]
          apply ih.2
          cases hlf : p.leftAt n with
          | none => rfl
          | some v => simpa [handleOk] using wf_leftAt_lt p h hlf
        · rw [left_get?_of_lt p h hn, right_get?_of_lt p h hn]
          cases hlf : p.leftAt n with
          | none =>
            cases hrf : p.rightAt n with
            | none => rfl
            | some r =>
              have hr2 := ih.1 t r (wf_rightAt_lt p h hrf)
              simp [hr2]
          | some l =>
            have hl2 := ih.1 t l (wf_leftAt_lt p h hlf)
            cases hb : p.includesF fuel t l with
            | true => simp [hl2, hb]
            | false =>
              cases hrf : p.rightAt n with
              | none => simp [hl2, hb]
              | some r =>
                have hr2 := ih.1 t r (wf_rightAt_lt p h hrf)
                simp [hl2, hb, hr2]
    · intro t co hco
      cases co with
      | none => rfl
      | some c =>
        have hc : c < p.size := by simpa [handleOk] using hco
        rw [ObjPool.includesChildrenFC, ObjPool.includesChildrenF]
        have hc2 := ih.1 t c hc
        cases hb : p.includesF fuel t c with
        | true => simp [hc2, hb]
        | false =>
          rw [right_get?_of_lt p h hc]
          have hnext := ih.2 t (p.rightAt c) (by
            cases hrf : p.rightAt c with
            | none => rfl
            | some v => simpa [handleOk] using wf_rightAt_lt p h hrf)
          simp [hc2, hb, hnext]

theorem intersect_rec_agree (p : ObjPool) (h : p.wfB = true) :
    ∀ fuel : Nat,
    (∀ root ray, root < p.size →
       p.intersectRecC fuel root ray = some (p.intersectRecF fuel root ray) ∧
       ∀ x ∈ p.intersectRecF fuel root ray, x.obj < p.size) ∧
    (∀ co ray, handleOk p.size co = true →
       p.intersectChildrenC fuel co ray = some (p.intersectChildrenF fuel co ray) ∧
       ∀ x ∈ p.intersectChildrenF fuel co ray, x.obj < p.size) := by
  intro fuel
  induction fuel with
  | zero =>
    constructor
    · intro root ray _
      exact ⟨rfl, by intro x hx; simp [ObjPool.intersectRecF] at hx⟩
    · intro co ray _
      cases co with
      | none => exact ⟨rfl, by intro x hx; simp [ObjPool.intersectChildrenF] at hx⟩
      | some c => exact ⟨rfl, by intro x hx; simp [ObjPool.intersectChildrenF] at hx⟩
  | succ fuel ih =>
    constructor
    · intro root ray hr
      rw [ObjPool.intersectRecC, ObjPool.intersectRecF, tinv_get?_of_lt p h hr,
        tag_get?_of_lt p hr]
      rcases htag : p.tagAt root with s | _ | op
      · exact ⟨rfl, fun x hx => by rw [shape_intersects_obj s _ root x hx]; exact hr⟩
      · rw [left_get?_of_lt p h hr]
        have hok : handleOk p.size (p.leftAt root) = true := by
          cases hlf : p.leftAt root with
          | none => rfl
          | some v => simpa [handleOk] using wf_leftAt_lt p h hlf
        exact ih.2 (p.leftAt root) (ray.transform (p.tinvAt root)) hok
      · obtain ⟨l, r, hlf, hrf, hls, hrs⟩ := wf_csg_children p h hr htag
        rw [left_get?_of_lt p h hr, right_get?_of_lt p h hr, hlf, hrf]
        have ihl := ih.1 l (ray.transform (p.tinvAt root)) hls
        have ihr := ih.1 r (ray.transform (p.tinvAt root)) hrs
        have hscan := csgScanGoC_eq op (fun x => p.includesFC (p.size + 1) x.obj l)
          (fun x => p.includesF (p.size + 1) x.obj l)
          (sortInts (p.intersectRecF fuel l (ray.transform (p.tinvAt root)) ++
            p.intersectRecF fuel r (ray.transform (p.tinvAt root)))) false false
          (fun x _ => (includes_agree p h (p.size + 1)).1 x.obj l hls)
        constructor
        · simp only [ihl.1, ihr.1, Option.bind_some]
          exact hscan
        · intro x hx
          have hx2 := csgScanGo_subset op _ _ false false x hx
          rcases List.mem_append.mp (mem_sortInts.mp hx2) with hx3 | hx3
          · exact ihl.2 x hx3
          · exact ihr.2 x hx3
    · intro co ray hco
      cases co with
      | none => exact ⟨rfl, by intro x hx; simp [ObjPool.intersectChildrenF] at hx⟩
      | some c =>
        have hc : c < p.size := by simpa [handleOk] using hco
        rw [ObjPool.intersectChildrenC, ObjPool.intersectChildrenF]
        have ihc := ih.1 c ray hc
        have hok : handleOk p.size (p.rightAt c) = true := by
          cases hrf : p.rightAt c with
          | none => rfl
          | some v => simpa [handleOk] using wf_rightAt_lt p h hrf
        have ihn := ih.2 (p.rightAt c) ray hok
        constructor
        · rw [ihc.1]
          simp only [Option.bind_some, right_get?_of_lt p h hc, ihn.1]
          rfl
        · intro x hx
          rcases List.mem_append.mp hx with hx | hx
          · exact ihc.2 x hx
          · exact ihn.2 x hx

theorem rootsOf_lt (p : ObjPool) : ∀ ro ∈ p.rootsOf, ro < p.size := by
  intro ro hro
  exact List.mem_range.mp (List.mem_filter.mp hro).1

theorem intersect_roots_agree (p : ObjPool) (h : p.wfB = true) (ray : Ray) :
    ∀ roots : List Obj, (∀ ro ∈ roots, ro < p.size) →
    p.intersectRootsC ray roots =
      some (roots.flatMap (fun root => p.intersectRecF (p.size + 1) root ray)) := by
  intro roots
  induction roots with
  | nil => intro _; rfl
  | cons ro rest ih =>
    intro hall
    rw [ObjPool.intersectRootsC,
      ((intersect_rec_agree p h (p.size + 1)).1 ro ray (hall ro (List.mem_cons_self _ _))).1,
      List.flatMap_cons]
    simp only [Option.bind_some, ih (fun x hx => hall x (List.mem_cons_of_mem _ hx))]
    rfl

theorem intersectC_agree (p : ObjPool) (h : p.wfB = true) (ray : Ray) :
    p.intersectC ray = some (p.intersect ray) := by
  rw [ObjPool.intersectC, ObjPool.intersect,
    intersect_roots_agree p h ray p.rootsOf (rootsOf_lt p)]
  rfl

theorem worldToObjectF_agree (p : ObjPool) (h : p.wfB = true) :
    ∀ fuel obj pt, obj < p.size →
    p.worldToObjectFC fuel obj pt = some (p.worldToObjectF fuel obj pt) := by
  intro fuel
  induction fuel with
  | zero =>
    intro obj pt ho
    rw [ObjPool.worldToObjectFC, ObjPool.worldToObjectF, tinv_get?_of_lt p h ho]
    rfl
  | succ fuel ih =>
    intro obj pt ho
    rw [ObjPool.worldToObjectFC, ObjPool.worldToObjectF, parent_get?_of_lt p h ho]
    cases hp : p.parentAt obj with
    | none =>
      simp only [Option.bind_some]
      rw [tinv_get?_of_lt p h ho]
      rfl
    | some par =>
      simp [ih par pt (wf_parentAt_lt p h hp), tinv_get?_of_lt p h ho]

theorem normalToWorldF_agree (p : ObjPool) (h : p.wfB = true) :
    ∀ fuel obj n, obj < p.size →
    p.normalToWorldFC fuel obj n = some (p.normalToWorldF fuel obj n) := by
  intro fuel
  induction fuel with
  | zero =>
    intro obj n ho
    rw [ObjPool.normalToWorldFC, ObjPool.normalToWorldF, tinv_get?_of_lt p h ho]
    rfl
  | succ fuel ih =>
    intro obj n ho
    rw [ObjPool.normalToWorldFC, ObjPool.normalToWorldF, tinv_get?_of_lt p h ho]
    simp only [Option.bind_some]
    rw [parent_get?_of_lt p h ho]
    cases hp : p.parentAt obj with
    | none => rfl
    | some par =>
      simp only [Option.bind_some]
      exact ih par _ (wf_parentAt_lt p h hp)

theorem normalAtC_agree (p : ObjPool) (h : p.wfB = true) (obj : Obj) (pt : Tuple)
    (ho : obj < p.size) : p.normalAtC obj pt = some (p.normalAt obj pt) := by
  rw [ObjPool.normalAtC, ObjPool.normalAt, tag_get?_of_lt p ho]
  rcases htag : p.tagAt obj with s | _ | op
  · simp [worldToObjectF_agree p h p.size obj pt ho,
      normalToWorldF_agree p h p.size obj, ho,
      ObjPool.worldToObject, ObjPool.normalToWorld]
  · rfl
  · rfl

/-- C10: starting from the empty arena, any sequence of add_shape,
add_group, add_child and add_csg calls whose handle arguments were
previously returned by the pool preserves well-formedness — the six parallel
vectors keep equal length, every stored parent/left/right handle is a valid
index, and every CSG node has both children present — and consequently the
vector indexing performed by intersect (includes included) and by
world_to_object / normal_to_world / normal_at never goes out of bounds and
the CSG unwraps in intersect never fail: the bounds-checked variants return
`some` of exactly what the unchecked functions compute. -/
theorem c10_arena_invariants (ops : List BuildOp)
    (h : opsValidB ObjPool.new ops = true) :
    (buildPool ops).wfB = true ∧
    (∀ ray, (buildPool ops).intersectC ray = some ((buildPool ops).intersect ray)) ∧
    (∀ obj pt, obj < (buildPool ops).size →
       (buildPool ops).normalAtC obj pt = some ((buildPool ops).normalAt obj pt)) := by
  have hwf : (buildPool ops).wfB = true := wf_build_fold ops ObjPool.new wf_new h
  exact ⟨hwf, fun ray => intersectC_agree _ hwf ray,
    fun obj pt ho => normalAtC_agree _ hwf obj pt ho⟩

/-- C10 witnessed on a construction sequence exercising every operation. -/
theorem c10_arena_invariants_witness :
    (buildPool buildOps10).wfB = true ∧
    (buildPool buildOps10).intersectC zRay = some ((buildPool buildOps10).intersect zRay) ∧
    (buildPool buildOps10).normalAtC 1 (Tuple.point 0 0 1) =
      some ((buildPool buildOps10).normalAt 1 (Tuple.point 0 0 1)) :=
  ⟨(c10_arena_invariants buildOps10 (by decide)).1,
   (c10_arena_invariants buildOps10 (by decide)).2.1 zRay,
   (c10_arena_invariants buildOps10 (by decide)).2.2 1 (Tuple.point 0 0 1) (by decide)⟩
